import Mathlib

/-!
# REC chat component: chart, table and CSV logic

A shallow embedding of `src/components/REC.jsx`.

Modelling conventions.
* A JavaScript string is a Lean `String`; `toLowerCase` / `toUpperCase` map the
  ASCII letters only (all literals compared against in the source are ASCII).
* A JSON scalar is a `JSValue`; a number is a rational, `NaN` or an infinity.
* `undefined` / a missing property is `none`.
* A record (a JSON object) is the list of its entries in `Object.keys` order.
* The host's `Number::toString` and `toLocaleString` are explicit arguments.
-/

namespace REC

/-! ## JavaScript values -/

/-- A JavaScript number: a finite value, `NaN`, `Infinity` or `-Infinity`. -/
inductive JSNumber where
  | finite (q : ℚ)
  | nan
  | posInf
  | negInf
  deriving DecidableEq

/-- A scalar that `response.json()` can put in a record field. -/
inductive JSValue where
  | str (s : String)
  | num (n : JSNumber)
  | bool (b : Bool)
  | null
  deriving DecidableEq

/-- A record: the entries of a flat JSON object, in `Object.keys` order. -/
abbrev Record := List (String × JSValue)

/-- The keys of `Object.keys(row)`. -/
def Object.keys (row : Record) : List String := row.map Prod.fst

/-- The values of `Object.values(row)`. -/
def Object.values (row : Record) : List JSValue := row.map Prod.snd

/-- Property read `row[key]`; `none` is `undefined`. -/
def Record.get (row : Record) (key : String) : Option JSValue := row.lookup key

/-- The global `isNaN` on a value that is already a number. -/
def JSNumber.isNaN : JSNumber → Bool
  | .nan => true
  | _ => false

/-- The operator `typeof`. -/
def typeof : Option JSValue → String
  | none => "undefined"
  | some (.str _) => "string"
  | some (.num _) => "number"
  | some (.bool _) => "boolean"
  | some .null => "object"

/-! ## JavaScript string operations -/

/-- ASCII model of `String.prototype.toLowerCase`. -/
def toLowerCase (s : String) : String := ⟨s.data.map Char.toLower⟩

/-- ASCII model of `String.prototype.toUpperCase`. -/
def toUpperCase (s : String) : String := ⟨s.data.map Char.toUpper⟩

/-- Whether `sub` occurs in `cs` as a contiguous block. -/
def includesChars (sub : List Char) : List Char → Bool
  | [] => sub.isPrefixOf []
  | c :: cs => sub.isPrefixOf (c :: cs) || includesChars sub cs

/-- The method `String.prototype.includes`. -/
def includes (s sub : String) : Bool := includesChars sub.data s.data

/-! ## Chart field selection (REC.jsx, lines 301-327) -/

/-- The predicate given to `keys.find` when the X axis is chosen. -/
def isAxisName (key : String) : Bool :=
  let lowerKey := toLowerCase key
  lowerKey == "year" ||
  lowerKey == "date" ||
  lowerKey == "month" ||
  lowerKey == "time" ||
  lowerKey == "location" ||
  lowerKey == "locality" ||
  lowerKey == "name" ||
  lowerKey == "category" ||
  lowerKey == "type"

/-- The value of `xAxisKey`: `keys.find(...) || keys[0]`. The operator `||` takes its
right operand when the left one is `undefined` or the empty string. -/
def xAxisKey (firstRow : Record) : Option String :=
  let keys := Object.keys firstRow
  match keys.find? isAxisName with
  | some key => if key = "" then keys.head? else some key
  | none => keys.head?

/-- The filter of `dataKeys`, for one key. -/
def isDataKey (firstRow : Record) (key : String) : Bool :=
  if some key = xAxisKey firstRow then false
  else
    let lowerKey := toLowerCase key
    if includes lowerKey "id" || includes lowerKey "index" then false
    else
      match firstRow.get key with
      | some (.num value) => !value.isNaN
      | _ => false

/-- The value of `dataKeys`: the keys plotted as series. -/
def dataKeys (firstRow : Record) : List String :=
  (Object.keys firstRow).filter (isDataKey firstRow)


/-! ## Display names (REC.jsx, lines 337-346) -/

/-- The step `.replace(/_/g, ' ')`. -/
def replaceUnderscore (cs : List Char) : List Char :=
  cs.map fun c => if c = '_' then ' ' else c

/-- The step `.replace(/([A-Z])/g, ' $1')`: a space before every capital. -/
def spaceBeforeCapital : List Char → List Char
  | [] => []
  | c :: cs =>
    if c.isUpper then ' ' :: c :: spaceBeforeCapital cs else c :: spaceBeforeCapital cs

/-- The step `.split(' ')`; the result always has at least one word. -/
def splitSpace : List Char → List (List Char)
  | [] => [[]]
  | c :: cs =>
    if c = ' ' then [] :: splitSpace cs
    else
      match splitSpace cs with
      | [] => [[c]]
      | word :: words => (c :: word) :: words

/-- The mapped function `word.charAt(0).toUpperCase() + word.slice(1).toLowerCase()`. -/
def capitalizeWord : List Char → List Char
  | [] => []
  | c :: cs => c.toUpper :: cs.map Char.toLower

/-- The step `.join(' ')`. -/
def joinSpace : List (List Char) → List Char
  | [] => []
  | [word] => word
  | word :: words => word ++ ' ' :: joinSpace words

/-- White space and line terminators of ECMAScript, the characters `trim` removes. -/
def isWhiteSpace (c : Char) : Bool :=
  let n := c.toNat
  n = 0x09 || n = 0x0A || n = 0x0B || n = 0x0C || n = 0x0D || n = 0x20 || n = 0xA0 ||
  n = 0x1680 || (0x2000 ≤ n && n ≤ 0x200A) || n = 0x2028 || n = 0x2029 || n = 0x202F ||
  n = 0x205F || n = 0x3000 || n = 0xFEFF

/-- The step `.trim()` on a list of characters. -/
def trimChars (cs : List Char) : List Char :=
  ((cs.dropWhile isWhiteSpace).reverse.dropWhile isWhiteSpace).reverse

/-- The method `String.prototype.trim`. -/
def trim (s : String) : String := ⟨trimChars s.data⟩

/-- The function `formatKeyName`, which gives a series its display label. -/
def formatKeyName (key : String) : String :=
  ⟨trimChars (joinSpace ((splitSpace (spaceBeforeCapital (replaceUnderscore key.data))).map
    capitalizeWord))⟩

/-- A space before every capital except one in first position. -/
def spaceBeforeInternalCapital : List Char → List Char
  | [] => []
  | c :: cs => c :: spaceBeforeCapital cs

/-- The label as the specification words it: underscores become spaces, a space goes
before each internal capital, each space-separated word is title-cased. -/
def labelSpec (key : String) : String :=
  ⟨joinSpace ((splitSpace (spaceBeforeInternalCapital (replaceUnderscore key.data))).map
    capitalizeWord)⟩

/-! ## CSV export (REC.jsx, lines 191-198) -/

/-- The method `Array.prototype.join` on an array of strings. -/
def join (sep : String) : List String → String
  | [] => ""
  | [x] => x
  | x :: xs => x ++ sep ++ join sep xs

/-- The text `Array.prototype.join` writes for one element: `null` and `undefined`
give the empty string, every other value its `ToString`. -/
def joinText (numberToString : JSNumber → String) : JSValue → String
  | .str s => s
  | .num n => numberToString n
  | .bool b => if b then "true" else "false"
  | .null => ""

/-- The function mapped over `Object.values(row)`:
`typeof val === 'string' && val.includes(',')` selects the template with the quotes. -/
def quoteValue (val : JSValue) : JSValue :=
  match val with
  | .str s => if includes s "," then .str ("\"" ++ s ++ "\"") else val
  | _ => val

/-- The function `convertToCSV`; `none` is a missing (`null` / `undefined`) list. -/
def convertToCSV (numberToString : JSNumber → String) (data : Option (List Record)) : String :=
  match data with
  | none => ""
  | some [] => ""
  | some (first :: rest) =>
    let headers := join "," (Object.keys first)
    let rows := (first :: rest).map fun row =>
      join "," (((Object.values row).map quoteValue).map (joinText numberToString))
    join "\n" (headers :: rows)

/-- The text of a value in a data line, as the specification words it: the value
verbatim, inside double quotes exactly when it is a string containing a comma. -/
def csvField (numberToString : JSNumber → String) (val : JSValue) : String :=
  match val with
  | .str s => if ',' ∈ s.data then "\"" ++ s ++ "\"" else s
  | other => joinText numberToString other

/-! ## Messages and the backend's replies -/

/-- A chat message; `chartData`, `chartType` and `tableData` are absent on notices. -/
structure Message where
  type : String
  text : String
  chartData : Option (List Record) := none
  chartType : Option JSValue := none
  tableData : Option (List Record) := none
  deriving DecidableEq

/-- The `chart` object of a query reply. -/
structure ChartPayload where
  type : Option JSValue
  data : Option (List Record)
  deriving DecidableEq

/-- The parsed body of a `/query` reply. -/
structure QueryData where
  summary : Option String
  chart : Option ChartPayload
  table : Option (List Record)
  error : Option String
  deriving DecidableEq

/-- The operator `||` with a string on the left: the right operand is taken when the
left one is missing or empty. -/
def strOr (a : Option String) (b : String) : String :=
  match a with
  | some s => if s = "" then b else s
  | none => b

/-- Truthiness of a JSON scalar. -/
def JSValue.truthy : JSValue → Bool
  | .str s => s ≠ ""
  | .num (.finite q) => q ≠ 0
  | .num .nan => false
  | .num _ => true
  | .bool b => b
  | .null => false

/-- The object `botMessage` built by `handleSend` from a successful reply. -/
def botMessage (response : QueryData) : Message :=
  { type := "bot"
    text := strOr response.summary "Analysis complete."
    chartData := some ((response.chart.bind fun c => c.data).getD [])
    chartType := some (match response.chart.bind fun c => c.type with
      | some t => if t.truthy then t else .str "line"
      | none => .str "line")
    tableData := some (response.table.getD []) }

/-! ## Rendering of one message (REC.jsx, lines 278-481) -/

/-- The two chart components. -/
inductive ChartKind where
  | BarChart
  | LineChart
  deriving DecidableEq

/-- One `Bar` or `Line` element. -/
structure Series where
  dataKey : String
  color : String
  name : String
  deriving DecidableEq

/-- The chart block. -/
structure ChartView where
  kind : ChartKind
  data : List Record
  xDataKey : Option String
  series : List Series
  deriving DecidableEq

/-- The palette `colors`. -/
def colors : List String :=
  ["#4f46e5", "#10b981", "#f59e0b", "#ef4444", "#8b5cf6", "#ec4899", "#06b6d4", "#84cc16"]

/-- The test `msg.chartType === 'bar'`. -/
def useBarChart (msg : Message) : Bool := msg.chartType = some (.str "bar")

/-- The branch `if (useBarChart) ... else ...`, which picks the chart component. -/
def chartKind (msg : Message) : ChartKind :=
  if useBarChart msg then .BarChart else .LineChart

/-- The chart block of a message: `msg.chartData && msg.chartData.length > 0 && (...)`. -/
def renderChart (msg : Message) : Option ChartView :=
  match msg.chartData with
  | none => none
  | some [] => none
  | some (firstRow :: rest) =>
    some
      { kind := chartKind msg
        data := firstRow :: rest
        xDataKey := xAxisKey firstRow
        series := (dataKeys firstRow).enum.map fun (i, key) =>
          { dataKey := key, color := colors.getD (i % colors.length) "", name := formatKeyName key } }

/-- The content of a body cell: `typeof val === 'number' ? val.toLocaleString() : val`. -/
inductive CellContent where
  | localeString (n : JSNumber)
  | verbatim (val : JSValue)
  deriving DecidableEq

/-- The function mapped over `Object.values(row)` in the table body. -/
def cellContent : JSValue → CellContent
  | .num n => .localeString n
  | val => .verbatim val

/-- One `th` element: its React key and its text. -/
structure HeaderCell where
  key : String
  text : String
  deriving DecidableEq

/-- The table block. -/
structure TableView where
  headers : List HeaderCell
  rows : List (List CellContent)
  deriving DecidableEq

/-- The table block of a message: `msg.tableData && msg.tableData.length > 0 && (...)`. -/
def renderTable (msg : Message) : Option TableView :=
  match msg.tableData with
  | none => none
  | some [] => none
  | some (first :: rest) =>
    some
      { headers := (Object.keys first).map fun key =>
          { key := key, text := ⟨trimChars (spaceBeforeCapital key.data)⟩ }
        rows := (first :: rest).map fun row => (Object.values row).map cellContent }

/-- What one entry of `messages.map` renders. -/
inductive MessageView where
  | user (text : String)
  | bot (text : String) (chart : Option ChartView) (table : Option TableView)
  deriving DecidableEq

/-- The body of `messages.map((msg, idx) => ...)`. -/
def renderMessage (msg : Message) : MessageView :=
  if msg.type = "user" then .user msg.text
  else .bot msg.text (renderChart msg) (renderTable msg)

/-- The chart block inside a rendered message, if any. -/
def MessageView.chartBlock : MessageView → Option ChartView
  | .user _ => none
  | .bot _ chart _ => chart

/-- The table block inside a rendered message, if any. -/
def MessageView.tableBlock : MessageView → Option TableView
  | .user _ => none
  | .bot _ _ table => table

/-! ## Component state and event handlers (REC.jsx, lines 6-178) -/

/-- The object kept in `uploadedFile`. -/
structure UploadedFile where
  name : String
  size : String
  columns : List String
  rows : JSNumber
  deriving DecidableEq

/-- The state of one mounted component: the five `useState` cells and the
`hasCheckedData` ref. -/
structure State where
  messages : List Message
  input : String
  loading : Bool
  uploadedFile : Option UploadedFile
  uploading : Bool
  hasCheckedData : Bool
  deriving DecidableEq

/-- The file picked in the file input: its name and its size in bytes. -/
structure File where
  name : String
  size : Nat
  deriving DecidableEq

/-- The requests the component sends to the backend. -/
inductive Request where
  | healthCheck
  | checkData
  | uploadCsv (file : File)
  | query (query : String)
  deriving DecidableEq

/-- How an awaited exchange ends: a response with its `ok` flag and parsed body,
or a thrown error with its message. -/
inductive Fetched (α : Type) where
  | response (ok : Bool) (data : α)
  | error (message : String)

/-- The parsed body of an `/upload-csv` reply. -/
structure UploadData where
  columns : Option (List String)
  rows_processed : Option JSNumber
  error : Option String
  found_columns : Option (List String)
  deriving DecidableEq

/-- The method `lastIndexOf` for one character, on a list: -1 when absent. -/
def lastIndexOfChars (c : Char) : List Char → Int
  | [] => -1
  | x :: xs =>
    let r := lastIndexOfChars c xs
    if 0 ≤ r then r + 1 else if x = c then 0 else -1

/-- The call `s.lastIndexOf('.')` and its likes. -/
def lastIndexOf (s : String) (c : Char) : Int := lastIndexOfChars c s.data

/-- The call `s.substring(start)`; a negative `start` counts as 0. -/
def substring (s : String) (start : Int) : String := ⟨s.data.drop start.toNat⟩

/-- The array `validExtensions`. -/
def validExtensions : List String := [".csv", ".xlsx", ".xls"]

/-- The value of `fileExtension` for a file name. -/
def fileExtension (name : String) : String :=
  toLowerCase (substring name (lastIndexOf name '.'))

/-- Two decimal digits of a number below 100. -/
def twoDigits (n : Nat) : String :=
  (if n < 10 then "0" else "") ++ toString n

/-- The label `(file.size / 1024).toFixed(2) + ' KB'`: the quotient is exact, and
`toFixed(2)` rounds it to the nearest hundredth, halves upwards. -/
def sizeLabel (size : Nat) : String :=
  let n := (size * 200 + 1024) / 2048
  toString (n / 100) ++ "." ++ twoDigits (n % 100) ++ " KB"

/-- Truthiness of a number. -/
def JSNumber.truthy (n : JSNumber) : Bool := (JSValue.num n).truthy

/-- The bot message appended when the extension is refused. -/
def invalidFileMessage : Message :=
  { type := "bot", text := " Please upload a valid CSV or Excel file (.csv, .xlsx, .xls)" }

/-- The part of `handleFileUpload` that runs before the `await`: the new state and the
request now pending, if one was sent. -/
def handleFileUpload.start (file : Option File) (s : State) : State × Option Request :=
  match file with
  | none => (s, none)
  | some file =>
    if ¬ validExtensions.contains (fileExtension file.name) then
      ({ s with messages := s.messages ++ [invalidFileMessage] }, none)
    else
      ({ s with uploading := true }, some (.uploadCsv file))

/-- The part of `handleFileUpload` that runs once the exchange has ended. -/
def handleFileUpload.resume (numberToString : JSNumber → String) (file : File)
    (reply : Fetched UploadData) (s : State) : State :=
  let s :=
    match reply with
    | .response true data =>
      { s with
        uploadedFile := some
          { name := file.name
            size := sizeLabel file.size
            columns := data.columns.getD []
            rows := match data.rows_processed with
              | some n => if n.truthy then n else .finite 0
              | none => .finite 0 }
        messages := s.messages ++ [
          ({ type := "bot",
             text := "✅ File \"" ++ file.name ++
              "\" uploaded and embedded successfully!\n\n📊 Data Summary:\n• Total Rows: " ++
              (match data.rows_processed with
                | some n => if n.truthy then numberToString n else "N/A"
                | none => "N/A") ++
              "\n• Columns: " ++ strOr (data.columns.map (join ", ")) "N/A" ++
              "\n• Vector Storage: Qdrant Cloud\n\n🎯 Now ask me anything about your real estate data!" } : Message)] }
    | .response false data =>
      { s with
        messages := s.messages ++ [
          ({ type := "bot",
             text := "❌ Upload failed: " ++ strOr data.error "Unknown error" ++ "\n\n" ++
              (match data.found_columns with
                | some cols => "Found columns: " ++ join ", " cols
                | none => "") } : Message)] }
    | .error message =>
      { s with
        messages := s.messages ++ [
          ({ type := "bot",
             text := "❌ Upload error: " ++ message ++
              "\n\nMake sure:\n1. Django server is running\n2. Qdrant is configured\n3. GEMINI_API_KEY is set" } : Message)] }
  { s with uploading := false }

/-- A whole run of `handleFileUpload` with no other event in between: the final state
and the requests issued. `reply` is how the exchange ends when one is started. -/
def handleFileUpload (numberToString : JSNumber → String) (file : Option File)
    (reply : Fetched UploadData) (s : State) : State × List Request :=
  match handleFileUpload.start file s, file with
  | (s1, some request), some file =>
    (handleFileUpload.resume numberToString file reply s1, [request])
  | (s1, _), _ => (s1, [])

/-- The function `analyzeQuery` after its request: the parsed body, or the message of
the error it throws. -/
def analyzeQuery (reply : Fetched QueryData) : Except String QueryData :=
  match reply with
  | .response true data => .ok data
  | .response false data => .error ("API Error: " ++ strOr data.error "Analysis failed")
  | .error message => .error ("API Error: " ++ message)

/-- The part of `handleSend` that runs before the `await`. -/
def handleSend.start (s : State) : State × Option Request :=
  if (trim s.input) = "" then (s, none)
  else
    ({ s with
        messages := s.messages ++ [({ type := "user", text := s.input } : Message)]
        input := ""
        loading := true },
      some (.query s.input))

/-- The part of `handleSend` that runs once `analyzeQuery` has returned or thrown. -/
def handleSend.resume (reply : Fetched QueryData) (s : State) : State :=
  let s :=
    match analyzeQuery reply with
    | .ok response => { s with messages := s.messages ++ [botMessage response] }
    | .error message =>
      { s with
        messages := s.messages ++ [
          ({ type := "bot",
             text := "❌ Error: " ++ message ++ "\n\n💡 " ++
              (if includes message "No data found" then "Please upload a file first!"
               else "Troubleshooting:\n1. Check if Django server is running\n2. Verify Qdrant connection\n3. Ensure GEMINI_API_KEY is valid\n4. Try rephrasing your query") } : Message)] }
  { s with loading := false }

/-- A whole run of `handleSend` with no other event in between. -/
def handleSend (reply : Fetched QueryData) (s : State) : State × List Request :=
  match handleSend.start s with
  | (s1, some request) => (handleSend.resume reply s1, [request])
  | (s1, none) => (s1, [])

/-- The function `removeFile`. -/
def removeFile (s : State) : State :=
  { s with
    uploadedFile := none
    messages := s.messages ++ [
      ({ type := "bot", text := "🗑️ File removed. Upload a new file to continue analysis." } : Message)] }

/-- The parsed body of a `/check-data` reply; `dataExists` is its field `exists`. -/
structure CheckData where
  dataExists : Option JSValue
  points_count : Option JSNumber
  deriving DecidableEq

/-- The function `initializeApp`: `health` is how the health check ends and `check` how
the data check ends; an error at either step is caught and only logged. -/
def initializeApp (toLocaleString : JSNumber → String) (health : Fetched Unit)
    (check : Fetched CheckData) (s : State) : State × List Request :=
  match health with
  | .error _ => (s, [.healthCheck])
  | .response _ _ =>
    match check with
    | .error _ => (s, [.healthCheck, .checkData])
    | .response _ data =>
      if (data.dataExists.map JSValue.truthy).getD false then
        ({ s with
            uploadedFile := some
              { name := "Pre-loaded data"
                size := "N/A"
                columns := ["locality", "date", "price", "demand"]
                rows := match data.points_count with
                  | some n => if n.truthy then n else .finite 0
                  | none => .finite 0 }
            messages := s.messages ++ [
              ({ type := "bot",
                 text := "✅ Data already loaded in Qdrant!\n\n📊 Found " ++
                  (match data.points_count with
                    | some n => toLocaleString n
                    | none => "undefined") ++
                  " embedded records\n\n🎯 You can start asking questions immediately:\n• \"Show price trends for Wakad\"\n• \"Compare demand across locations\"\n• \"What are the yearly sales patterns?\"" } : Message)] },
          [.healthCheck, .checkData])
      else (s, [.healthCheck, .checkData])

/-- The mount effect: the latch `hasCheckedData` is tested and set, then
`initializeApp` runs. -/
def mountEffect (toLocaleString : JSNumber → String) (health : Fetched Unit)
    (check : Fetched CheckData) (s : State) : State × List Request :=
  if s.hasCheckedData then (s, [])
  else initializeApp toLocaleString health check { s with hasCheckedData := true }

/-! ## Controls and events (REC.jsx, lines 231-246 and 508-540) -/

/-- The attribute `disabled={loading}` of the text input. -/
def inputDisabled (s : State) : Bool := s.loading

/-- The attribute `disabled={loading || !input.trim()}` of the send button. -/
def sendDisabled (s : State) : Bool := s.loading || (trim s.input = "")

/-- A click on the send button, whose `onClick` is `handleSend`; a disabled button
fires no click. -/
def clickSend (s : State) : State × Option Request :=
  if sendDisabled s then (s, none) else handleSend.start s

/-- A key press in the text input, whose `onKeyPress` is
`e.key === 'Enter' && !e.shiftKey && handleSend()`; a disabled input gets no key. -/
def keyPress (key : String) (shiftKey : Bool) (s : State) : State × Option Request :=
  if inputDisabled s then (s, none)
  else if key = "Enter" ∧ shiftKey = false then handleSend.start s
  else (s, none)

/-- What can happen to a mounted component: a run of the mount effect, the handlers up
to their `await`, the continuations after it, and the two `setInput` callers. -/
inductive Event where
  | mount (health : Fetched Unit) (check : Fetched CheckData)
  | fileChosen (file : Option File)
  | uploadSettled (file : File) (reply : Fetched UploadData)
  | inputChanged (text : String)
  | send
  | querySettled (reply : Fetched QueryData)
  | fileRemoved

/-- The state after one event and the requests the event issues. -/
def step (numberToString toLocaleString : JSNumber → String) :
    Event → State → State × List Request
  | .mount health check, s => mountEffect toLocaleString health check s
  | .fileChosen file, s => ((handleFileUpload.start file s).1, (handleFileUpload.start file s).2.toList)
  | .uploadSettled file reply, s => (handleFileUpload.resume numberToString file reply s, [])
  | .inputChanged text, s => ({ s with input := text }, [])
  | .send, s => ((handleSend.start s).1, (handleSend.start s).2.toList)
  | .querySettled reply, s => (handleSend.resume reply s, [])
  | .fileRemoved, s => (removeFile s, [])

/-- The state after a sequence of events and all the requests issued on the way. -/
def run (numberToString toLocaleString : JSNumber → String) :
    List Event → State → State × List Request
  | [], s => (s, [])
  | e :: es, s =>
    ((run numberToString toLocaleString es (step numberToString toLocaleString e s).1).1,
      (step numberToString toLocaleString e s).2 ++
        (run numberToString toLocaleString es (step numberToString toLocaleString e s).1).2)

/-- How many messages the runs of the mount effect append along a sequence of events:
each run counts for the growth of the message list over it. -/
def noticesAppended (numberToString toLocaleString : JSNumber → String) :
    List Event → State → Nat
  | [], _ => 0
  | e :: es, s =>
    (match e with
      | .mount _ _ =>
        (step numberToString toLocaleString e s).1.messages.length - s.messages.length
      | _ => 0) +
    noticesAppended numberToString toLocaleString es (step numberToString toLocaleString e s).1

/-! ## Sessions: the controls and the query requests in flight -/

/-- The array `quickQueries`. -/
def quickQueries : List String :=
  ["Show me price trends in Wakad",
   "Compare prices across different locations",
   "Give me analysis of Wakad",
   "Compare Ambegaon Budruk and Aundh demand trends",
   "Show price growth for Akurdi over the last 3 years"]

/-- A mounted component together with the query requests sent and not yet settled. -/
structure Session where
  state : State
  inFlight : List Request

/-- What the user and the backend can do to a mounted component: the callers of the
handlers in the markup, and the end of a pending exchange. -/
inductive Action where
  | mount (health : Fetched Unit) (check : Fetched CheckData)
  | fileChosen (file : Option File)
  | uploadSettled (file : File) (reply : Fetched UploadData)
  | typed (text : String)
  | quickQuery (idx : Nat)
  | clickSend
  | keyPress (key : String) (shiftKey : Bool)
  | querySettled (reply : Fetched QueryData)
  | clickRemove

/-- The session after one action. The upload button is `disabled={uploading}`, the text
input `disabled={loading}`, the remove button is rendered only with a file in the slot,
the quick-query buttons call `setInput(query)`, and a query exchange can end only when
one is in flight. -/
def act (numberToString toLocaleString : JSNumber → String) : Action → Session → Session
  | .mount health check, w =>
    { w with state := (mountEffect toLocaleString health check w.state).1 }
  | .fileChosen file, w =>
    if w.state.uploading then w
    else { w with state := (handleFileUpload.start file w.state).1 }
  | .uploadSettled file reply, w =>
    { w with state := handleFileUpload.resume numberToString file reply w.state }
  | .typed text, w =>
    if inputDisabled w.state then w else { w with state := { w.state with input := text } }
  | .quickQuery idx, w =>
    match quickQueries[idx]? with
    | some query => { w with state := { w.state with input := query } }
    | none => w
  | .clickSend, w =>
    { state := (clickSend w.state).1, inFlight := w.inFlight ++ (clickSend w.state).2.toList }
  | .keyPress key shiftKey, w =>
    { state := (keyPress key shiftKey w.state).1,
      inFlight := w.inFlight ++ (keyPress key shiftKey w.state).2.toList }
  | .querySettled reply, w =>
    match w.inFlight with
    | [] => w
    | _ :: rest => { state := handleSend.resume reply w.state, inFlight := rest }
  | .clickRemove, w =>
    if w.state.uploadedFile.isSome then { w with state := removeFile w.state } else w

/-- The session after a sequence of actions. -/
def actAll (numberToString toLocaleString : JSNumber → String) :
    List Action → Session → Session
  | [], w => w
  | a :: rest, w =>
    actAll numberToString toLocaleString rest (act numberToString toLocaleString a w)

/-! ## Definitions that follow the specification's words -/

/-- The nine reserved names, in the order of the specification's priority list. -/
def reservedNames : List String :=
  ["year", "date", "month", "time", "location", "locality", "name", "category", "type"]

/-- The X-axis key as the specification's priority rule words it: the reserved names
are tried in list order and the first one some key matches decides. -/
def xAxisKeyByPriority (firstRow : Record) : Option String :=
  (reservedNames.filterMap fun name =>
    (Object.keys firstRow).find? fun key => toLowerCase key == name).head?

/-- A value that is a finite number. -/
def isFiniteNumber : Option JSValue → Bool
  | some (.num (.finite _)) => true
  | _ => false

/-- A record whose keys match two reserved names, the later one of the list first. -/
def locationYearPrice : Record :=
  [("location", .str "Wakad"), ("year", .num (.finite 2020)), ("price", .num (.finite 5400))]

/-- A record with an infinite value, as `JSON.parse` gives for `1e999`. -/
def yearInfinitePrice : Record :=
  [("year", .num (.finite 2020)), ("price", .num .posInf)]

/-- The one-record list `[{a: 1, b: 'x,y'}]`. -/
def oneAB : List Record :=
  [[("a", .num (.finite 1)), ("b", .str "x,y")]]

/-- A bot message with a one-record chart list and an empty table list. -/
def chartOnlyMessage : Message :=
  { type := "bot", text := "Prices", chartData := some [locationYearPrice],
    chartType := some (.str "bar"), tableData := some [] }

/-- A bot message with a table list of two uniform records. -/
def twoRowTable : Message :=
  { type := "bot", text := "Sales",
    tableData := some
      [[("area", .str "Wakad"), ("row_id", .num (.finite 1)), ("price", .num (.finite 5400))],
       [("area", .str "Aundh"), ("row_id", .num (.finite 2)), ("price", .num (.finite 6100))]] }

/-- The state of a freshly mounted component, before the mount effect has run. -/
def initialState : State :=
  { messages := [
      { type := "bot"
        text := " Hello! I'm your AI Real Estate Analyst.\n\n📤 Upload your Excel/CSV file to get started, or ask questions if data is already loaded!\n\n💡 Try these smart queries:\n• \"Show me price trends in Wakad\"\n• \"Compare prices across locations\"\n• \"What are the total sales by year?\"\n• \"Analyze demand patterns\"\n• \"Show me the top performing areas\"" }]
    input := ""
    loading := false
    uploadedFile := none
    uploading := false
    hasCheckedData := false }

/-- A file named `report.pdf`. -/
def reportPdf : File := { name := "report.pdf", size := 2048 }

/-- A state with typed text and no request pending. -/
def typedState : State :=
  { messages := [], input := "Compare prices", loading := false, uploadedFile := none,
    uploading := false, hasCheckedData := true }

/-- A state with a query pending and text put in the input by a quick-query button. -/
def pendingState : State :=
  { messages := [{ type := "user", text := "Analyze demand patterns" }],
    input := "Compare prices", loading := true, uploadedFile := none,
    uploading := false, hasCheckedData := true }

/-- The bot message of a successful reply as the specification words it: the chart
type is the reply's chart type, and `line` when that is missing. -/
def botMessageSpec (response : QueryData) : Message :=
  { type := "bot"
    text := strOr response.summary "Analysis complete."
    chartData := some ((response.chart.bind fun c => c.data).getD [])
    chartType := some ((response.chart.bind fun c => c.type).getD (.str "line"))
    tableData := some (response.table.getD []) }

/-- A successful reply whose chart type is present and empty. -/
def emptyTypeReply : QueryData :=
  { summary := some "Done", chart := some { type := some (.str ""), data := some [] },
    table := none, error := none }

/-- The error text of a failed upload or query as the specification words it: the text
the server supplied, and the given default when it supplied none. -/
def serverErrorText {α : Type} (error : α → Option String) (dflt : String) :
    Fetched α → String
  | .response _ data => strOr (error data) dflt
  | .error _ => dflt

/-- A file named `data.csv`. -/
def dataCsv : File := { name := "data.csv", size := 1536 }

/-- The body of a reply that refuses an upload for its columns. -/
def missingColumnsReply : UploadData :=
  { columns := none
    rows_processed := none
    error := some "Missing columns"
    found_columns := some ["area", "rate"] }

end REC

/-!
# RealEstateChatbot component: file validation and CSV export

A shallow embedding of `src/components/RealEstateChatbot.jsx`, with the values, strings
and messages of the `REC` embedding.
-/

namespace RealEstateChatbot

/-- The file picked in the file input: its name, its size in bytes and the MIME type the
browser reports for it (`file.type`). -/
structure File where
  name : String
  size : Nat
  type : String
  deriving DecidableEq

/-- The state of one mounted component: its five `useState` cells. -/
structure State where
  messages : List REC.Message
  input : String
  loading : Bool
  uploadedFile : Option REC.UploadedFile
  uploading : Bool
  deriving DecidableEq

/-- The requests the component sends to the backend. -/
inductive Request where
  | upload (file : File)
  | analyze (query : String)
  deriving DecidableEq

/-- The parsed body of an `/upload/` reply. -/
structure UploadData where
  columns_found : Option (List String)
  total_rows : Option REC.JSNumber
  error : Option String
  deriving DecidableEq

/-- The array `validTypes`. -/
def validTypes : List String :=
  ["text/csv", "application/vnd.ms-excel",
    "application/vnd.openxmlformats-officedocument.spreadsheetml.sheet"]

/-- The method `String.prototype.endsWith`. -/
def endsWith (s suffix : String) : Bool := suffix.data.isSuffixOf s.data

/-- The bot message appended when the file is refused. -/
def invalidFileMessage : REC.Message :=
  { type := "bot", text := "❌ Please upload a valid CSV or Excel file." }

/-- The part of `handleFileUpload` that runs before the `await`: the new state and the
request now pending, if one was sent. -/
def handleFileUpload.start (file : Option File) (s : State) : State × Option Request :=
  match file with
  | none => (s, none)
  | some file =>
    if ¬ validTypes.contains file.type ∧ ¬ endsWith file.name ".csv" then
      ({ s with messages := s.messages ++ [invalidFileMessage] }, none)
    else
      ({ s with uploading := true }, some (.upload file))

/-- The part of `handleFileUpload` that runs once the exchange has ended. -/
def handleFileUpload.resume (numberToString : REC.JSNumber → String) (file : File)
    (reply : REC.Fetched UploadData) (s : State) : State :=
  let s :=
    match reply with
    | .response true data =>
      { s with
        uploadedFile := some
          { name := file.name
            size := REC.sizeLabel file.size
            columns := data.columns_found.getD []
            rows := match data.total_rows with
              | some n => if n.truthy then n else .finite 0
              | none => .finite 0 }
        messages := s.messages ++ [
          ({ type := "bot",
             text := "✅ File \"" ++ file.name ++
              "\" uploaded successfully!\n\n📊 Data Summary:\n• Total Rows: " ++
              (match data.total_rows with
                | some n => if n.truthy then numberToString n else "N/A"
                | none => "N/A") ++
              "\n• Columns Found: " ++
              (match data.columns_found with
                | some cols => if cols.length = 0 then "N/A" else toString cols.length
                | none => "N/A") ++
              "\n\nYou can now ask questions about your real estate data!" } : REC.Message)] }
    | .response false data =>
      { s with
        messages := s.messages ++ [
          ({ type := "bot",
             text := "❌ Upload failed: " ++ REC.strOr data.error "Unknown error" } : REC.Message)] }
    | .error message =>
      { s with
        messages := s.messages ++ [
          ({ type := "bot",
             text := "❌ Upload error: " ++ message ++
              ". Make sure Django server is running on " ++ "http://localhost:8000/api" } : REC.Message)] }
  { s with uploading := false }

/-- A whole run of `handleFileUpload` with no other event in between: the final state
and the requests issued. -/
def handleFileUpload (numberToString : REC.JSNumber → String) (file : Option File)
    (reply : REC.Fetched UploadData) (s : State) : State × List Request :=
  match handleFileUpload.start file s, file with
  | (s1, some request), some file =>
    (handleFileUpload.resume numberToString file reply s1, [request])
  | (s1, _), _ => (s1, [])

/-- The function `convertToCSV` of this component: the values are joined as they are. -/
def convertToCSV (numberToString : REC.JSNumber → String) (data : Option (List REC.Record)) :
    String :=
  match data with
  | none => ""
  | some [] => ""
  | some (first :: rest) =>
    let headers := REC.join "," (REC.Object.keys first)
    let rows := (first :: rest).map fun row =>
      REC.join "," ((REC.Object.values row).map (REC.joinText numberToString))
    REC.join "\n" (headers :: rows)

/-- The state of a freshly mounted component. -/
def initialState : State :=
  { messages := [
      { type := "bot"
        text := "Hello! Please upload your real estate CSV file to get started, or I can analyze the default dataset. Try queries like:\n• \"Analyze Wakad\"\n• \"Compare Ambegaon Budruk and Aundh demand trends\"\n• \"Show price growth for Akurdi over the last 3 years\"" }]
    input := ""
    loading := false
    uploadedFile := none
    uploading := false }

/-- A file named `report.pdf` for which the browser reports the type `text/csv`. -/
def reportPdfAsCsv : File := { name := "report.pdf", size := 2048, type := "text/csv" }

/-- A file named `data.xlsx` for which the browser reports no type. -/
def dataXlsxNoType : File := { name := "data.xlsx", size := 2048, type := "" }

/-- The number of commas of a text, one less than its number of comma-separated fields. -/
def commaCount (s : String) : Nat := s.data.count ','

/-- A one-record list whose key and whose value both contain a comma. -/
def cityState : List REC.Record := [[("city, state", .str "Pune, MH")]]

/-- The two characters the `REC` serialiser adds around a value it quotes. -/
def quoteExcess : REC.JSValue → Nat
  | .str s => if ',' ∈ s.data then 2 else 0
  | _ => 0

/-! ## Sending a query (RealEstateChatbot.jsx, lines 86-136) -/

/-- The parsed body of an `/analyze/` reply. -/
structure QueryData where
  summary : Option String
  chartData : Option (List REC.Record)
  chartType : Option REC.JSValue
  tableData : Option (List REC.Record)
  error : Option String
  deriving DecidableEq

/-- The object `botMessage` built by `handleSend` from a successful reply. -/
def botMessage (response : QueryData) : REC.Message :=
  { type := "bot"
    text := REC.strOr response.summary "Analysis complete."
    chartData := some (response.chartData.getD [])
    chartType := some (match response.chartType with
      | some t => if t.truthy then t else .str "line"
      | none => .str "line")
    tableData := some (response.tableData.getD []) }

/-- The function `analyzeQuery` after its request: the parsed body, or the message of
the error it throws. -/
def analyzeQuery (reply : REC.Fetched QueryData) : Except String QueryData :=
  match reply with
  | .response true data => .ok data
  | .response false data => .error ("API Error: " ++ REC.strOr data.error "Analysis failed")
  | .error message => .error ("API Error: " ++ message)

/-- The part of `handleSend` that runs before the `await`. -/
def handleSend.start (s : State) : State × Option Request :=
  if (REC.trim s.input) = "" then (s, none)
  else
    ({ s with
        messages := s.messages ++ [({ type := "user", text := s.input } : REC.Message)]
        input := ""
        loading := true },
      some (.analyze s.input))

/-- The part of `handleSend` that runs once `analyzeQuery` has returned or thrown. -/
def handleSend.resume (reply : REC.Fetched QueryData) (s : State) : State :=
  let s :=
    match analyzeQuery reply with
    | .ok response => { s with messages := s.messages ++ [botMessage response] }
    | .error message =>
      { s with
        messages := s.messages ++ [
          ({ type := "bot",
             text := "❌ Error: " ++ message ++
              "\n\nPlease ensure:\n1. Django server is running\n2. File is uploaded\n3. Query mentions valid location names" } : REC.Message)] }
  { s with loading := false }

/-- A whole run of `handleSend` with no other event in between. -/
def handleSend (reply : REC.Fetched QueryData) (s : State) : State × List Request :=
  match handleSend.start s with
  | (s1, some request) => (handleSend.resume reply s1, [request])
  | (s1, none) => (s1, [])

/-- A state of this component whose input holds a space, a tab and a line feed. -/
def blankInputState : State :=
  { initialState with input := " \t\n" }

/-- A state of the `REC` component whose input holds a space, a tab and a line feed. -/
def recBlankInputState : REC.State :=
  { REC.typedState with input := " \t\n", uploading := true }

/-- A successful reply with a summary only. -/
def summaryReply : QueryData :=
  { summary := some "Done", chartData := none, chartType := none, tableData := none,
    error := none }

end RealEstateChatbot

/-! # Theorems -/

namespace REC

/-! ## Chart field selection -/

theorem isAxisName_iff (key : String) :
    isAxisName key = true ↔ toLowerCase key ∈ reservedNames := by
  simp [isAxisName, reservedNames, or_assoc]

theorem isAxisName_ne_empty {key : String} (h : isAxisName key = true) : key ≠ "" := by
  rintro rfl
  revert h
  decide

theorem xAxisKey_of_find {firstRow : Record} {key : String}
    (h : (Object.keys firstRow).find? isAxisName = some key) :
    xAxisKey firstRow = some key := by
  have hne : key ≠ "" := isAxisName_ne_empty (List.find?_some h)
  simp [xAxisKey, h, hne]

theorem xAxisKey_of_split {firstRow : Record} {before after : List String} {key : String}
    (hkeys : Object.keys firstRow = before ++ key :: after)
    (hbefore : ∀ k ∈ before, isAxisName k = false) (hkey : isAxisName key = true) :
    xAxisKey firstRow = some key := by
  apply xAxisKey_of_find
  rw [List.find?_eq_some]
  exact ⟨hkey, before, after, hkeys, fun a ha => by simp [hbefore a ha]⟩

/-- C1: for a first record with at least one key, when some key lower-cases to a
reserved name the X-axis key is the first such key in key order; when none does it is
the record's first key; in both cases it is a key of the record. -/
theorem xAxisKey_first_match_or_first_key (firstRow : Record)
    (h : Object.keys firstRow ≠ []) :
    ((∃ key ∈ Object.keys firstRow, toLowerCase key ∈ reservedNames) →
      ∃ before key after, Object.keys firstRow = before ++ key :: after ∧
        (∀ k ∈ before, toLowerCase k ∉ reservedNames) ∧
        toLowerCase key ∈ reservedNames ∧ xAxisKey firstRow = some key) ∧
    ((∀ key ∈ Object.keys firstRow, toLowerCase key ∉ reservedNames) →
      xAxisKey firstRow = (Object.keys firstRow).head?) ∧
    (∃ key ∈ Object.keys firstRow, xAxisKey firstRow = some key) := by
  have hfirst : ∃ k ks, Object.keys firstRow = k :: ks := by
    cases hk : Object.keys firstRow with
    | nil => exact absurd hk h
    | cons k ks => exact ⟨k, ks, rfl⟩
  have hnone : (Object.keys firstRow).find? isAxisName = none →
      xAxisKey firstRow = (Object.keys firstRow).head? := by
    intro hf
    simp [xAxisKey, hf]
  have hsome : ∀ key, (Object.keys firstRow).find? isAxisName = some key →
      ∃ before after, Object.keys firstRow = before ++ key :: after ∧
        (∀ k ∈ before, toLowerCase k ∉ reservedNames) ∧
        toLowerCase key ∈ reservedNames ∧ xAxisKey firstRow = some key := by
    intro key hf
    obtain ⟨hkey, before, after, hsplit, hbefore⟩ := List.find?_eq_some.mp hf
    refine ⟨before, after, hsplit, ?_, (isAxisName_iff key).mp hkey, xAxisKey_of_find hf⟩
    intro k hk hmem
    have := hbefore k hk
    simp [(isAxisName_iff k).mpr hmem] at this
  refine ⟨?_, ?_, ?_⟩
  · rintro ⟨key, hmem, hres⟩
    cases hf : (Object.keys firstRow).find? isAxisName with
    | none =>
      rw [List.find?_eq_none] at hf
      exact absurd ((isAxisName_iff key).mpr hres) (hf key hmem)
    | some found =>
      obtain ⟨before, after, h1, h2, h3, h4⟩ := hsome found hf
      exact ⟨before, found, after, h1, h2, h3, h4⟩
  · intro hall
    apply hnone
    rw [List.find?_eq_none]
    intro key hmem hax
    exact hall key hmem ((isAxisName_iff key).mp hax)
  · cases hf : (Object.keys firstRow).find? isAxisName with
    | none =>
      obtain ⟨k, ks, hk⟩ := hfirst
      exact ⟨k, by simp [hk], by rw [hnone hf, hk]; rfl⟩
    | some found =>
      exact ⟨found, List.mem_of_find?_eq_some hf, xAxisKey_of_find hf⟩

/-- Witness of C1 on the keys location, year, price. -/
theorem xAxisKey_first_match_or_first_key_witness :
    Object.keys locationYearPrice ≠ [] ∧ xAxisKey locationYearPrice = some "location" ∧
    ∃ key ∈ Object.keys locationYearPrice, xAxisKey locationYearPrice = some key :=
  ⟨by decide, by decide,
    (xAxisKey_first_match_or_first_key locationYearPrice (by decide)).2.2⟩

theorem includesChars_iff_infix (sub cs : List Char) :
    includesChars sub cs = true ↔ sub <:+: cs := by
  induction cs with
  | nil => simp [includesChars]
  | cons c cs ih =>
    simp only [includesChars, Bool.or_eq_true, ih, List.isPrefixOf_iff_prefix]
    exact List.infix_cons_iff.symm

theorem includes_iff_infix (s sub : String) :
    includes s sub = true ↔ sub.data <:+: s.data :=
  includesChars_iff_infix sub.data s.data

theorem isDataKey_iff (firstRow : Record) (key : String) :
    isDataKey firstRow key = true ↔
      xAxisKey firstRow ≠ some key ∧
      ¬ "id".data <:+: (toLowerCase key).data ∧
      ¬ "index".data <:+: (toLowerCase key).data ∧
      ∃ n, firstRow.get key = some (.num n) ∧ n ≠ .nan := by
  rw [← includes_iff_infix, ← includes_iff_infix]
  unfold isDataKey
  by_cases hx : some key = xAxisKey firstRow
  · simp [hx]
  · have hx2 : xAxisKey firstRow ≠ some key := fun h => hx h.symm
    by_cases hid : includes (toLowerCase key) "id" = true
    · simp [hx, hid]
    · by_cases hindex : includes (toLowerCase key) "index" = true
      · simp [hx, hindex]
      · simp only [hx, hid, hindex, if_false, Bool.or_self, Bool.false_eq_true, ne_eq,
          not_false_eq_true, true_and, hx2]
        cases hv : firstRow.get key with
        | none => simp
        | some v =>
          cases v with
          | num n => cases n <;> simp [JSNumber.isNaN]
          | _ => simp

/-- C2, as the code has it: a key is plotted as a series if and only if it is a key of
the first record other than the X-axis key, its lower-cased name contains neither `id`
nor `index`, and its value in the first record is a number other than NaN (a string or
NaN is never plotted; an infinity is); the series keep the record's key order. -/
theorem dataKeys_iff_number_not_nan (firstRow : Record) :
    (∀ key, key ∈ dataKeys firstRow ↔
      key ∈ Object.keys firstRow ∧
      xAxisKey firstRow ≠ some key ∧
      ¬ "id".data <:+: (toLowerCase key).data ∧
      ¬ "index".data <:+: (toLowerCase key).data ∧
      ∃ n, firstRow.get key = some (.num n) ∧ n ≠ .nan) ∧
    (dataKeys firstRow).Sublist (Object.keys firstRow) := by
  refine ⟨fun key => ?_, List.filter_sublist _⟩
  simp only [dataKeys, List.mem_filter, isDataKey_iff]

/-- C2 as stated fails: the key price of a record whose price is `Infinity` is plotted
although its value is not a finite number. -/
theorem dataKeys_plots_infinity :
    ¬ ("price" ∈ dataKeys yearInfinitePrice ↔
      "price" ∈ Object.keys yearInfinitePrice ∧
      xAxisKey yearInfinitePrice ≠ some "price" ∧
      ¬ "id".data <:+: (toLowerCase "price").data ∧
      ¬ "index".data <:+: (toLowerCase "price").data ∧
      isFiniteNumber (yearInfinitePrice.get "price") = true) := by
  have hmem : "price" ∈ dataKeys yearInfinitePrice := by decide
  have hval : isFiniteNumber (yearInfinitePrice.get "price") = false := by decide
  intro h
  have := (h.mp hmem).2.2.2.2
  rw [hval] at this
  exact Bool.false_ne_true this

/-- C3, as the code has it: when keys of the first record match two different reserved
names, the X-axis key is the matching key that comes first in the record's key order,
whatever the rank of its reserved name in the list. -/
theorem xAxisKey_earliest_in_record (firstRow : Record)
    (before between after : List String) (key other : String)
    (hkeys : Object.keys firstRow = before ++ key :: (between ++ other :: after))
    (hbefore : ∀ k ∈ before, toLowerCase k ∉ reservedNames)
    (hkey : toLowerCase key ∈ reservedNames)
    (_hother : toLowerCase other ∈ reservedNames)
    (_hdiff : toLowerCase key ≠ toLowerCase other) :
    xAxisKey firstRow = some key := by
  apply xAxisKey_of_split hkeys _ ((isAxisName_iff key).mpr hkey)
  intro k hk
  have := hbefore k hk
  rw [← isAxisName_iff] at this
  simpa using this

/-- Witness of C3: for the keys location, year, price the X-axis key is location. -/
theorem xAxisKey_earliest_in_record_witness :
    xAxisKey locationYearPrice = some "location" :=
  xAxisKey_earliest_in_record locationYearPrice [] [] ["price"] "location" "year"
    (by decide) (by decide) (by decide) (by decide) (by decide)

/-- C3 as stated fails: for the keys location, year, price the priority rule names
year, and the renderer takes location. -/
theorem xAxisKey_not_by_priority :
    xAxisKeyByPriority locationYearPrice = some "year" ∧
    xAxisKey locationYearPrice ≠ some "year" := by
  constructor <;> decide

/-! ## CSV export -/

theorem includes_comma_iff (s : String) : includes s "," = true ↔ ',' ∈ s.data := by
  unfold includes
  have hdata : (",": String).data = [','] := rfl
  rw [hdata]
  induction s.data with
  | nil => simp [includesChars, List.isPrefixOf]
  | cons c cs ih =>
    simp only [includesChars, Bool.or_eq_true, ih, List.mem_cons]
    have : List.isPrefixOf [','] (c :: cs) = true ↔ ',' = c := by
      simp [List.isPrefixOf]
    rw [this]

theorem intercalate_go_eq (sep acc : String) (l : List String) :
    String.intercalate.go acc sep l =
      match l with
      | [] => acc
      | x :: xs => acc ++ sep ++ join sep (x :: xs) := by
  induction l generalizing acc with
  | nil => rfl
  | cons x xs ih =>
    rw [String.intercalate.go, ih]
    cases xs with
    | nil => rfl
    | cons y ys => simp only [join, String.append_assoc]

theorem join_eq_intercalate (sep : String) (l : List String) :
    join sep l = sep.intercalate l := by
  cases l with
  | nil => rfl
  | cons x xs =>
    rw [String.intercalate, intercalate_go_eq]
    cases xs with
    | nil => rfl
    | cons y ys => simp only [join, String.append_assoc]

theorem joinText_quoteValue (numberToString : JSNumber → String) (val : JSValue) :
    joinText numberToString (quoteValue val) = csvField numberToString val := by
  cases val with
  | str s =>
    by_cases h : ',' ∈ s.data
    · simp [quoteValue, csvField, h, (includes_comma_iff s).mpr h, joinText]
    · have h2 : includes s "," = false := by
        rw [← Bool.not_eq_true, includes_comma_iff]
        exact h
      simp [quoteValue, csvField, h, h2, joinText]
  | num n => rfl
  | bool b => rfl
  | null => rfl

/-- C4: `convertToCSV` returns the empty text for a missing or empty list; for a
non-empty list it returns the header line (the first record's keys joined by commas)
followed by one line per record in list order, the lines joined by a newline, and in a
data line a value is written inside double quotes when it is a string containing a
comma and verbatim otherwise. -/
theorem convertToCSV_header_and_lines (numberToString : JSNumber → String) :
    convertToCSV numberToString none = "" ∧
    convertToCSV numberToString (some []) = "" ∧
    (∀ first rest, convertToCSV numberToString (some (first :: rest)) =
      "\n".intercalate (",".intercalate (Object.keys first) ::
        (first :: rest).map fun row =>
          ",".intercalate ((Object.values row).map (csvField numberToString)))) ∧
    (∀ s, ',' ∈ s.data → csvField numberToString (.str s) = "\"" ++ s ++ "\"") ∧
    (∀ val, (¬ ∃ s, val = .str s ∧ ',' ∈ s.data) →
      csvField numberToString val = joinText numberToString val) := by
  refine ⟨rfl, rfl, ?_, ?_, ?_⟩
  · intro first rest
    simp only [convertToCSV, join_eq_intercalate, List.map_map]
    congr 2
    apply List.map_congr_left
    intro row _
    congr 1
    apply List.map_congr_left
    intro val _
    exact joinText_quoteValue numberToString val
  · intro s hs
    simp [csvField, hs]
  · intro val hval
    cases val with
    | str s =>
      have : ',' ∉ s.data := fun h => hval ⟨s, rfl, h⟩
      simp [csvField, this, joinText]
    | num n => rfl
    | bool b => rfl
    | null => rfl

/-- C5, as the code has it: the CSV export of `[{a: 1, b: 'x,y'}]` is the header line,
a newline and the data line with the second value in double quotes, with no newline
after the data line. -/
theorem convertToCSV_oneAB (numberToString : JSNumber → String)
    (h : numberToString (.finite 1) = "1") :
    convertToCSV numberToString (some oneAB) = "a,b\n1,\"x,y\"" := by
  have hq : quoteValue (.str "x,y") = .str "\"x,y\"" := by decide
  have hn : quoteValue (.num (.finite 1)) = .num (.finite 1) := rfl
  simp only [convertToCSV, oneAB, Object.keys, Object.values, List.map, join, hq, hn, joinText,
    h]
  decide

/-- Witness of C5 with a conversion that writes every number as 1. -/
theorem convertToCSV_oneAB_witness :
    convertToCSV (fun _ => "1") (some oneAB) = "a,b\n1,\"x,y\"" :=
  convertToCSV_oneAB (fun _ => "1") rfl

/-- C5 as stated fails: the export of `[{a: 1, b: 'x,y'}]` is not the text that ends
with a newline. -/
theorem convertToCSV_oneAB_no_trailing_newline :
    ¬ ∀ numberToString : JSNumber → String, numberToString (.finite 1) = "1" →
      convertToCSV numberToString (some oneAB) = "a,b\n1,\"x,y\"\n" := by
  intro hall
  have h := hall (fun _ => "1") rfl
  revert h
  decide

/-! ## Chart kind -/

theorem botMessage_chartType_bar_iff (response : QueryData) :
    (botMessage response).chartType = some (.str "bar") ↔
      ∃ c, response.chart = some c ∧ c.type = some (.str "bar") := by
  cases hc : response.chart with
  | none => simp [botMessage, hc]
  | some c =>
    cases ht : c.type with
    | none => simp [botMessage, hc, ht]
    | some t =>
      by_cases hbar : t = .str "bar"
      · subst hbar
        simp [botMessage, hc, ht, JSValue.truthy]
      · by_cases htr : t.truthy = true
        · simp [botMessage, hc, ht, htr, hbar]
        · simp [botMessage, hc, ht, htr, hbar]

/-- C6: the chart of a bot message built from a reply is a bar chart if and only if the
reply's chart type is exactly the string bar, and a line chart in every other case; the
chart block carries that kind, and the kind does not depend on the chart data. -/
theorem chartKind_bar_iff_type_bar :
    (∀ response : QueryData, chartKind (botMessage response) = .BarChart ↔
      ∃ c, response.chart = some c ∧ c.type = some (.str "bar")) ∧
    (∀ response : QueryData, chartKind (botMessage response) = .LineChart ↔
      ¬ ∃ c, response.chart = some c ∧ c.type = some (.str "bar")) ∧
    (∀ msg : Message, (renderChart msg).map (fun view => view.kind) =
      (renderChart msg).map (fun _ => chartKind msg)) ∧
    (∀ (msg : Message) (data : Option (List Record)),
      chartKind { msg with chartData := data } = chartKind msg) := by
  refine ⟨?_, ?_, ?_, ?_⟩
  · intro response
    rw [← botMessage_chartType_bar_iff]
    simp [chartKind, useBarChart]
  · intro response
    rw [← botMessage_chartType_bar_iff]
    simp [chartKind, useBarChart]
  · intro msg
    unfold renderChart
    split <;> rfl
  · intro msg data
    rfl

/-! ## Display names -/

theorem splitSpace_ne_nil (cs : List Char) : splitSpace cs ≠ [] := by
  cases cs with
  | nil => simp [splitSpace]
  | cons c cs =>
    unfold splitSpace
    split
    · simp
    · split <;> simp

theorem trimChars_space_cons (cs : List Char) : trimChars (' ' :: cs) = trimChars cs := by
  have h : isWhiteSpace ' ' = true := by decide
  simp [trimChars, List.dropWhile_cons, h]

theorem joinSpace_nil_cons {words : List (List Char)} (h : words ≠ []) :
    joinSpace ([] :: words) = ' ' :: joinSpace words := by
  cases words with
  | nil => exact absurd rfl h
  | cons w ws => rfl

theorem trimChars_label (cs : List Char) :
    trimChars (joinSpace ((splitSpace (spaceBeforeCapital cs)).map capitalizeWord)) =
      trimChars (joinSpace ((splitSpace (spaceBeforeInternalCapital cs)).map capitalizeWord)) := by
  cases cs with
  | nil => rfl
  | cons c cs =>
    by_cases hc : c.isUpper = true
    · have h1 : spaceBeforeCapital (c :: cs) = ' ' :: spaceBeforeInternalCapital (c :: cs) := by
        simp [spaceBeforeCapital, spaceBeforeInternalCapital, hc]
      have h2 : ∀ x, splitSpace (' ' :: x) = [] :: splitSpace x := by
        intro x
        simp [splitSpace]
      have h3 : (splitSpace (spaceBeforeInternalCapital (c :: cs))).map capitalizeWord ≠ [] := by
        simpa using splitSpace_ne_nil _
      rw [h1, h2, List.map_cons, capitalizeWord, joinSpace_nil_cons h3, trimChars_space_cons]
    · simp [spaceBeforeCapital, spaceBeforeInternalCapital, hc]

/-- C7, as the code has it: the display label of a key is the key with every underscore
replaced by a space, a space inserted before each internal capital letter, each
space-separated word title-cased, and the white space at both ends then removed;
total_sales gives Total Sales and avgPrice gives Avg Price. -/
theorem formatKeyName_eq_trim_labelSpec :
    (∀ key : String, formatKeyName key = trim (labelSpec key)) ∧
    formatKeyName "total_sales" = "Total Sales" ∧
    formatKeyName "avgPrice" = "Avg Price" := by
  refine ⟨fun key => ?_, by decide, by decide⟩
  simp only [formatKeyName, trim, labelSpec, trimChars_label]

/-- C7 as stated fails: for the key total_ the words of the claim give the label Total
followed by a space, and the code gives Total. -/
theorem formatKeyName_trims :
    labelSpec "total_" = "Total " ∧ formatKeyName "total_" = "Total" ∧
    formatKeyName "total_" ≠ labelSpec "total_" := by
  refine ⟨by decide, by decide, by decide⟩

/-! ## Chart and table blocks -/

theorem renderChart_isSome_iff (msg : Message) :
    (renderChart msg).isSome = true ↔ ∃ data, msg.chartData = some data ∧ data ≠ [] := by
  unfold renderChart
  split <;> simp_all

theorem renderTable_isSome_iff (msg : Message) :
    (renderTable msg).isSome = true ↔ ∃ data, msg.tableData = some data ∧ data ≠ [] := by
  unfold renderTable
  split <;> simp_all

/-- C8: for a bot message the chart block is rendered if and only if the chart data
list is present and non-empty, the table block if and only if the table data list is
present and non-empty, and neither decision depends on the other list. -/
theorem blocks_rendered_iff_nonempty (msg : Message) (h : msg.type = "bot") :
    ((renderMessage msg).chartBlock.isSome = true ↔
      ∃ data, msg.chartData = some data ∧ data ≠ []) ∧
    ((renderMessage msg).tableBlock.isSome = true ↔
      ∃ data, msg.tableData = some data ∧ data ≠ []) ∧
    (∀ table, (renderMessage { msg with tableData := table }).chartBlock =
      (renderMessage msg).chartBlock) ∧
    (∀ chart, (renderMessage { msg with chartData := chart }).tableBlock =
      (renderMessage msg).tableBlock) := by
  have hbot : ¬ msg.type = "user" := by
    rw [h]
    decide
  refine ⟨?_, ?_, ?_, ?_⟩
  · simp only [renderMessage, hbot, if_false, MessageView.chartBlock]
    exact renderChart_isSome_iff msg
  · simp only [renderMessage, hbot, if_false, MessageView.tableBlock]
    exact renderTable_isSome_iff msg
  · intro table
    simp only [renderMessage, hbot, if_false, MessageView.chartBlock]
    rfl
  · intro chart
    simp only [renderMessage, hbot, if_false, MessageView.tableBlock]
    rfl

/-- Witness of C8: a bot message with a chart record and an empty table list shows the
chart block and no table block. -/
theorem blocks_rendered_iff_nonempty_witness :
    (renderMessage chartOnlyMessage).chartBlock.isSome = true ∧
    ¬ (renderMessage chartOnlyMessage).tableBlock.isSome = true :=
  ⟨(blocks_rendered_iff_nonempty chartOnlyMessage rfl).1.mpr
      ⟨[locationYearPrice], rfl, by simp⟩,
    fun hshown => by
      obtain ⟨data, hdata, hne⟩ := (blocks_rendered_iff_nonempty chartOnlyMessage rfl).2.1.mp hshown
      have : data = [] := by
        have h2 : chartOnlyMessage.tableData = some [] := rfl
        rw [h2] at hdata
        exact (Option.some.inj hdata).symm
      exact hne this⟩

/-! ## Table -/

theorem values_getElem_of_keys (row : Record) (hnodup : (Object.keys row).Nodup)
    (j : Nat) (key : String) (hj : (Object.keys row)[j]? = some key) :
    ∃ val, row.get key = some val ∧ (Object.values row)[j]? = some val := by
  induction row generalizing j with
  | nil => simp [Object.keys] at hj
  | cons entry tl ih =>
    obtain ⟨k, v⟩ := entry
    cases j with
    | zero =>
      simp only [Object.keys, List.map_cons, List.getElem?_cons_zero, Option.some.injEq] at hj
      subst hj
      exact ⟨v, by simp [Record.get, List.lookup], by simp [Object.values]⟩
    | succ j =>
      simp only [Object.keys, List.map_cons, List.getElem?_cons_succ] at hj
      simp only [Object.keys, List.map_cons, List.nodup_cons] at hnodup
      have hmem : key ∈ tl.map Prod.fst := List.getElem?_mem hj
      have hne : key ≠ k := fun hk => hnodup.1 (hk ▸ hmem)
      obtain ⟨val, hget, hval⟩ := ih hnodup.2 j hj
      refine ⟨val, ?_, by simpa [Object.values] using hval⟩
      have hbeq : (key == k) = false := by simpa using hne
      simpa [Record.get, List.lookup, hbeq] using hget

/-- C9: for a non-empty table data list of uniform records (each record has the keys of
the first one in the same order; the keys of a record are distinct, as object keys are)
the table has one header column per key of the first record, in key order and with none
left out, one body row per record in list order, and the cell of row i under header j
shows the value of record i for the key of header j. -/
theorem renderTable_shows_every_key (msg : Message) (first : Record) (rest : List Record)
    (hmsg : msg.tableData = some (first :: rest))
    (huniform : ∀ row ∈ rest, Object.keys row = Object.keys first)
    (hnodup : (Object.keys first).Nodup) :
    ∃ table, renderTable msg = some table ∧
      table.headers.map (fun header => header.key) = Object.keys first ∧
      table.rows.length = (first :: rest).length ∧
      ∀ (i j : Nat) (row : Record) (key : String),
        (first :: rest)[i]? = some row → (Object.keys first)[j]? = some key →
        ∃ val cells, row.get key = some val ∧ table.rows[i]? = some cells ∧
          cells[j]? = some (cellContent val) := by
  refine ⟨{ headers := (Object.keys first).map fun key =>
                { key := key, text := ⟨trimChars (spaceBeforeCapital key.data)⟩ },
            rows := (first :: rest).map fun row => (Object.values row).map cellContent },
    ?_, ?_, ?_, ?_⟩
  · unfold renderTable
    rw [hmsg]
  · simp [List.map_map, Function.comp_def]
  · simp
  · intro i j row key hrow hkey
    show ∃ val cells, row.get key = some val ∧
      ((first :: rest).map fun row => (Object.values row).map cellContent)[i]? = some cells ∧
      cells[j]? = some (cellContent val)
    have hkeys : Object.keys row = Object.keys first := by
      have hmem : row ∈ first :: rest := List.getElem?_mem hrow
      rcases List.mem_cons.mp hmem with h | h
      · rw [h]
      · exact huniform row h
    obtain ⟨val, hget, hval⟩ :=
      values_getElem_of_keys row (hkeys ▸ hnodup) j key (hkeys ▸ hkey)
    refine ⟨val, (Object.values row).map cellContent, hget, ?_, ?_⟩
    · rw [List.getElem?_map, hrow]
      rfl
    · rw [List.getElem?_map, hval]
      rfl

/-- Witness of C9 on a table of two records with the keys area, row_id, price: the
column row_id is kept and the second row shows 6100 under price. -/
theorem renderTable_shows_every_key_witness :
    ∃ table, renderTable twoRowTable = some table ∧
      table.headers.map (fun header => header.key) = ["area", "row_id", "price"] ∧
      table.rows.length = 2 ∧
      (table.rows[1]?.bind fun cells => cells[2]?) =
        some (.localeString (.finite 6100)) := by
  obtain ⟨table, hrender, hheaders, hrows, hcell⟩ :=
    renderTable_shows_every_key twoRowTable
      [("area", .str "Wakad"), ("row_id", .num (.finite 1)), ("price", .num (.finite 5400))]
      [[("area", .str "Aundh"), ("row_id", .num (.finite 2)), ("price", .num (.finite 6100))]]
      rfl (by decide) (by decide)
  obtain ⟨val, cells, hget, hcells, hcellj⟩ := hcell 1 2
    [("area", .str "Aundh"), ("row_id", .num (.finite 2)), ("price", .num (.finite 6100))]
    "price" rfl rfl
  have hval : val = .num (.finite 6100) := by
    have hprice : Record.get
        [("area", .str "Aundh"), ("row_id", .num (.finite 2)), ("price", .num (.finite 6100))]
        "price" = some (.num (.finite 6100)) := rfl
    rw [hprice] at hget
    exact (Option.some.inj hget).symm
  refine ⟨table, hrender, hheaders, hrows, ?_⟩
  rw [hcells, Option.some_bind, hcellj, hval]
  rfl

/-! ## File upload -/

/-- C10: a file whose name, from its last dot on and lower-cased, is none of .csv, .xlsx,
.xls is refused before any request: no request is issued, exactly one bot message is
appended, and the uploaded-file slot, the uploading flag, the loading flag and the
input text keep their values. -/
theorem handleFileUpload_rejects_extension (numberToString : JSNumber → String)
    (file : File) (reply : Fetched UploadData) (s : State)
    (h : fileExtension file.name ∉ validExtensions) :
    handleFileUpload.start (some file) s =
      ({ s with messages := s.messages ++ [invalidFileMessage] }, none) ∧
    (handleFileUpload numberToString (some file) reply s).2 = [] ∧
    (handleFileUpload numberToString (some file) reply s).1.messages =
      s.messages ++ [invalidFileMessage] ∧
    invalidFileMessage.type = "bot" ∧
    (handleFileUpload numberToString (some file) reply s).1.uploadedFile = s.uploadedFile ∧
    (handleFileUpload numberToString (some file) reply s).1.uploading = s.uploading ∧
    (handleFileUpload numberToString (some file) reply s).1.loading = s.loading ∧
    (handleFileUpload numberToString (some file) reply s).1.input = s.input := by
  have hcontains : validExtensions.contains (fileExtension file.name) = false := by
    rw [← Bool.not_eq_true]
    simpa [List.contains] using h
  have hstart : handleFileUpload.start (some file) s =
      ({ s with messages := s.messages ++ [invalidFileMessage] }, none) := by
    simp [handleFileUpload.start, hcontains, h]
  have hrun : handleFileUpload numberToString (some file) reply s =
      ({ s with messages := s.messages ++ [invalidFileMessage] }, []) := by
    simp [handleFileUpload, hstart]
  rw [hrun]
  exact ⟨hstart, rfl, rfl, rfl, rfl, rfl, rfl, rfl⟩

/-- Witness of C10: `report.pdf` picked in the initial state, whatever the backend
would have answered. -/
theorem handleFileUpload_rejects_extension_witness :
    fileExtension reportPdf.name = ".pdf" ∧
    (handleFileUpload (fun _ => "1") (some reportPdf) (.error "offline") initialState).2 = [] ∧
    (handleFileUpload (fun _ => "1") (some reportPdf) (.error "offline")
      initialState).1.messages = initialState.messages ++ [invalidFileMessage] :=
  have h := handleFileUpload_rejects_extension (fun _ => "1") reportPdf (.error "offline")
    initialState (by decide)
  ⟨by decide, h.2.1, h.2.2.1⟩

/-! ## Removal of the uploaded file -/

/-- C13: `removeFile` empties the uploaded-file slot and makes the message list the
previous list followed by one bot notice; the input text, the loading flag and the
uploading flag keep their values. -/
theorem removeFile_clears_slot_and_appends_one (s : State) :
    (removeFile s).uploadedFile = none ∧
    (∃ notice : Message, notice.type = "bot" ∧
      (removeFile s).messages = s.messages ++ [notice]) ∧
    (∀ (i : Nat) (m : Message), s.messages[i]? = some m →
      (removeFile s).messages[i]? = some m) ∧
    (removeFile s).input = s.input ∧
    (removeFile s).loading = s.loading ∧
    (removeFile s).uploading = s.uploading := by
  refine ⟨rfl, ⟨_, rfl, rfl⟩, ?_, rfl, rfl, rfl⟩
  intro i m hm
  have hlt : i < s.messages.length := (List.getElem?_eq_some.mp hm).1
  show (s.messages ++ [_])[i]? = some m
  rw [List.getElem?_append_left hlt, hm]

/-! ## The message list only grows -/

theorem handleFileUpload_start_grows (file : Option File) (s : State) :
    s.messages <+: (handleFileUpload.start file s).1.messages := by
  unfold handleFileUpload.start
  split
  · exact List.prefix_refl _
  · split
    · exact List.prefix_append _ _
    · exact List.prefix_refl _

theorem handleFileUpload_resume_grows (numberToString : JSNumber → String) (file : File)
    (reply : Fetched UploadData) (s : State) :
    s.messages <+: (handleFileUpload.resume numberToString file reply s).messages := by
  unfold handleFileUpload.resume
  split <;> exact List.prefix_append _ _

theorem handleSend_start_grows (s : State) :
    s.messages <+: (handleSend.start s).1.messages := by
  unfold handleSend.start
  split
  · exact List.prefix_refl _
  · exact List.prefix_append _ _

theorem handleSend_resume_grows (reply : Fetched QueryData) (s : State) :
    s.messages <+: (handleSend.resume reply s).messages := by
  unfold handleSend.resume
  split <;> exact List.prefix_append _ _

theorem initializeApp_grows (toLocaleString : JSNumber → String) (health : Fetched Unit)
    (check : Fetched CheckData) (s : State) :
    s.messages <+: (initializeApp toLocaleString health check s).1.messages := by
  unfold initializeApp
  split
  · exact List.prefix_refl _
  · split
    · exact List.prefix_refl _
    · split
      · exact List.prefix_append _ _
      · exact List.prefix_refl _

theorem mountEffect_grows (toLocaleString : JSNumber → String) (health : Fetched Unit)
    (check : Fetched CheckData) (s : State) :
    s.messages <+: (mountEffect toLocaleString health check s).1.messages := by
  unfold mountEffect
  split
  · exact List.prefix_refl _
  · exact initializeApp_grows toLocaleString health check { s with hasCheckedData := true }

theorem step_grows (numberToString toLocaleString : JSNumber → String) (e : Event)
    (s : State) : s.messages <+: (step numberToString toLocaleString e s).1.messages := by
  cases e with
  | mount health check => exact mountEffect_grows toLocaleString health check s
  | fileChosen file => exact handleFileUpload_start_grows file s
  | uploadSettled file reply => exact handleFileUpload_resume_grows numberToString file reply s
  | inputChanged text => exact List.prefix_refl _
  | send => exact handleSend_start_grows s
  | querySettled reply => exact handleSend_resume_grows reply s
  | fileRemoved => exact List.prefix_append _ _

/-- C14: every transition of the component (mount effect, file chosen and refused or
sent, upload settled in success or failure, input changed, send, query settled in
success or failure, file removed) leaves the previous message list as a prefix of the
new one, along any sequence of events as well; so every earlier message stays in
place and the list never gets shorter. -/
theorem messages_append_only (numberToString toLocaleString : JSNumber → String) :
    (∀ (e : Event) (s : State),
      s.messages <+: (step numberToString toLocaleString e s).1.messages) ∧
    (∀ (es : List Event) (s : State),
      s.messages <+: (run numberToString toLocaleString es s).1.messages) ∧
    (∀ (es : List Event) (s : State) (i : Nat) (m : Message), s.messages[i]? = some m →
      (run numberToString toLocaleString es s).1.messages[i]? = some m) ∧
    (∀ (es : List Event) (s : State),
      s.messages.length ≤ (run numberToString toLocaleString es s).1.messages.length) := by
  have hrun : ∀ (es : List Event) (s : State),
      s.messages <+: (run numberToString toLocaleString es s).1.messages := by
    intro es
    induction es with
    | nil => intro s; exact List.prefix_refl _
    | cons e es ih =>
      intro s
      exact (step_grows numberToString toLocaleString e s).trans
        (ih (step numberToString toLocaleString e s).1)
  refine ⟨step_grows numberToString toLocaleString, hrun, ?_, ?_⟩
  · intro es s i m hm
    obtain ⟨t, ht⟩ := hrun es s
    have hlt : i < s.messages.length := (List.getElem?_eq_some.mp hm).1
    rw [← ht, List.getElem?_append_left hlt, hm]
  · intro es s
    exact (hrun es s).length_le

/-! ## The mount effect runs its check once -/

theorem initializeApp_latch (toLocaleString : JSNumber → String) (health : Fetched Unit)
    (check : Fetched CheckData) (s : State) :
    (initializeApp toLocaleString health check s).1.hasCheckedData = s.hasCheckedData := by
  unfold initializeApp
  split
  · rfl
  · split
    · rfl
    · split <;> rfl

theorem initializeApp_requests (toLocaleString : JSNumber → String) (health : Fetched Unit)
    (check : Fetched CheckData) (s : State) :
    (initializeApp toLocaleString health check s).2 = [.healthCheck] ∨
    (initializeApp toLocaleString health check s).2 = [.healthCheck, .checkData] := by
  unfold initializeApp
  split
  · exact Or.inl rfl
  · split
    · exact Or.inr rfl
    · split <;> exact Or.inr rfl

theorem step_keeps_latch (numberToString toLocaleString : JSNumber → String) (e : Event)
    (s : State) (h : s.hasCheckedData = true) :
    (step numberToString toLocaleString e s).1.hasCheckedData = true := by
  cases e with
  | mount health check => simp [step, mountEffect, h]
  | fileChosen file =>
    simp only [step, handleFileUpload.start]
    split
    · exact h
    · split <;> exact h
  | uploadSettled file reply =>
    simp only [step, handleFileUpload.resume]
    split <;> exact h
  | inputChanged text => exact h
  | send =>
    simp only [step, handleSend.start]
    split <;> exact h
  | querySettled reply =>
    simp only [step, handleSend.resume]
    split <;> exact h
  | fileRemoved => exact h

theorem step_mount_sets_latch (numberToString toLocaleString : JSNumber → String)
    (health : Fetched Unit) (check : Fetched CheckData) (s : State) :
    (step numberToString toLocaleString (.mount health check) s).1.hasCheckedData = true := by
  by_cases h : s.hasCheckedData = true
  · exact step_keeps_latch numberToString toLocaleString _ s h
  · simp [step, mountEffect, h, initializeApp_latch]

theorem step_requests_count (numberToString toLocaleString : JSNumber → String) (e : Event)
    (s : State) :
    (step numberToString toLocaleString e s).2.count .healthCheck ≤ 1 ∧
    (step numberToString toLocaleString e s).2.count .checkData ≤ 1 := by
  cases e with
  | mount health check =>
    simp only [step, mountEffect]
    split
    · simp
    · rcases initializeApp_requests toLocaleString health check
        { s with hasCheckedData := true } with h | h <;> rw [h] <;> decide
  | fileChosen file =>
    simp only [step, handleFileUpload.start]
    split
    · simp
    · split <;> simp [List.count_cons]
  | uploadSettled file reply => simp [step]
  | inputChanged text => simp [step]
  | send =>
    simp only [step, handleSend.start]
    split <;> simp [List.count_cons]
  | querySettled reply => simp [step]
  | fileRemoved => simp [step]

theorem step_latched_quiet (numberToString toLocaleString : JSNumber → String) (e : Event)
    (s : State) (h : s.hasCheckedData = true) :
    (step numberToString toLocaleString e s).2.count .healthCheck = 0 ∧
    (step numberToString toLocaleString e s).2.count .checkData = 0 := by
  cases e with
  | mount health check => simp [step, mountEffect, h]
  | fileChosen file =>
    simp only [step, handleFileUpload.start]
    split
    · simp
    · split <;> simp [List.count_cons]
  | uploadSettled file reply => simp [step]
  | inputChanged text => simp [step]
  | send =>
    simp only [step, handleSend.start]
    split <;> simp [List.count_cons]
  | querySettled reply => simp [step]
  | fileRemoved => simp [step]

theorem step_unlatched_quiet_or_mount (numberToString toLocaleString : JSNumber → String)
    (e : Event) (s : State) :
    (∃ health check, e = .mount health check) ∨
    ((step numberToString toLocaleString e s).2.count .healthCheck = 0 ∧
      (step numberToString toLocaleString e s).2.count .checkData = 0) := by
  cases e with
  | mount health check => exact Or.inl ⟨health, check, rfl⟩
  | fileChosen file =>
    refine Or.inr ?_
    simp only [step, handleFileUpload.start]
    split
    · simp
    · split <;> simp [List.count_cons]
  | uploadSettled file reply => exact Or.inr (by simp [step])
  | inputChanged text => exact Or.inr (by simp [step])
  | send =>
    refine Or.inr ?_
    simp only [step, handleSend.start]
    split <;> simp [List.count_cons]
  | querySettled reply => exact Or.inr (by simp [step])
  | fileRemoved => exact Or.inr (by simp [step])

theorem initializeApp_of_health_error (toLocaleString : JSNumber → String)
    (message : String) (check : Fetched CheckData) (s : State) :
    initializeApp toLocaleString (.error message) check s = (s, [.healthCheck]) := rfl

theorem initializeApp_of_check_error (toLocaleString : JSNumber → String)
    (ok : Bool) (u : Unit) (message : String) (s : State) :
    initializeApp toLocaleString (.response ok u) (.error message) s =
      (s, [.healthCheck, .checkData]) := rfl

theorem initializeApp_of_no_data (toLocaleString : JSNumber → String)
    (ok : Bool) (u : Unit) (ok2 : Bool) (data : CheckData) (s : State)
    (h : (data.dataExists.map JSValue.truthy).getD false = false) :
    initializeApp toLocaleString (.response ok u) (.response ok2 data) s =
      (s, [.healthCheck, .checkData]) := by
  simp [initializeApp, h]

theorem initializeApp_of_data (toLocaleString : JSNumber → String)
    (ok : Bool) (u : Unit) (ok2 : Bool) (data : CheckData) (s : State)
    (h : (data.dataExists.map JSValue.truthy).getD false = true) :
    ∃ (notice : Message) (rows : JSNumber), notice.type = "bot" ∧
      initializeApp toLocaleString (.response ok u) (.response ok2 data) s =
        ({ s with
            uploadedFile := some
              { name := "Pre-loaded data", size := "N/A",
                columns := ["locality", "date", "price", "demand"], rows := rows }
            messages := s.messages ++ [notice] },
          [.healthCheck, .checkData]) := by
  refine ⟨{ type := "bot",
            text := "✅ Data already loaded in Qdrant!\n\n📊 Found " ++
              (match data.points_count with
                | some n => toLocaleString n
                | none => "undefined") ++
              " embedded records\n\n🎯 You can start asking questions immediately:\n• \"Show price trends for Wakad\"\n• \"Compare demand across locations\"\n• \"What are the yearly sales patterns?\"" },
    (match data.points_count with
      | some n => if n.truthy then n else JSNumber.finite 0
      | none => JSNumber.finite 0), rfl, ?_⟩
  simp only [initializeApp, h, if_true]

theorem initializeApp_messages (toLocaleString : JSNumber → String) (health : Fetched Unit)
    (check : Fetched CheckData) (s : State) :
    (initializeApp toLocaleString health check s).1.messages = s.messages ∨
    ∃ notice : Message,
      (initializeApp toLocaleString health check s).1.messages = s.messages ++ [notice] := by
  cases health with
  | error message => exact Or.inl rfl
  | response ok u =>
    cases check with
    | error message => exact Or.inl rfl
    | response ok2 data =>
      by_cases h : (data.dataExists.map JSValue.truthy).getD false = true
      · obtain ⟨notice, rows, -, hrun⟩ := initializeApp_of_data toLocaleString ok u ok2 data s h
        exact Or.inr ⟨notice, by rw [hrun]⟩
      · have h2 : (data.dataExists.map JSValue.truthy).getD false = false := by
          simpa using h
        rw [initializeApp_of_no_data toLocaleString ok u ok2 data s h2]
        exact Or.inl rfl

theorem mountEffect_messages (toLocaleString : JSNumber → String) (health : Fetched Unit)
    (check : Fetched CheckData) (s : State) :
    (mountEffect toLocaleString health check s).1.messages = s.messages ∨
    ∃ notice : Message,
      (mountEffect toLocaleString health check s).1.messages = s.messages ++ [notice] := by
  unfold mountEffect
  split
  · exact Or.inl rfl
  · exact initializeApp_messages toLocaleString health check { s with hasCheckedData := true }

theorem mount_growth_le_one (numberToString toLocaleString : JSNumber → String)
    (health : Fetched Unit) (check : Fetched CheckData) (s : State) :
    (step numberToString toLocaleString (.mount health check) s).1.messages.length -
      s.messages.length ≤ 1 := by
  have hstep : step numberToString toLocaleString (.mount health check) s =
      mountEffect toLocaleString health check s := rfl
  rw [hstep]
  rcases mountEffect_messages toLocaleString health check s with h | ⟨notice, h⟩
  · rw [h]
    omega
  · rw [h, List.length_append, List.length_singleton]
    omega

theorem run_latched_quiet (numberToString toLocaleString : JSNumber → String)
    (es : List Event) (s : State) (h : s.hasCheckedData = true) :
    (run numberToString toLocaleString es s).1.hasCheckedData = true ∧
    (run numberToString toLocaleString es s).2.count .healthCheck = 0 ∧
    (run numberToString toLocaleString es s).2.count .checkData = 0 ∧
    noticesAppended numberToString toLocaleString es s = 0 := by
  induction es generalizing s with
  | nil => exact ⟨h, rfl, rfl, rfl⟩
  | cons e es ih =>
    have hnext := step_keeps_latch numberToString toLocaleString e s h
    obtain ⟨h1, h2, h3, h4⟩ := ih (step numberToString toLocaleString e s).1 hnext
    obtain ⟨q1, q2⟩ := step_latched_quiet numberToString toLocaleString e s h
    refine ⟨h1, ?_, ?_, ?_⟩
    · simp only [run, List.count_append, q1, h2]
    · simp only [run, List.count_append, q2, h3]
    · simp only [noticesAppended, h4, Nat.add_zero]
      cases e with
      | mount health check => simp [step, mountEffect, h]
      | _ => rfl

theorem run_counts_le_one (numberToString toLocaleString : JSNumber → String)
    (es : List Event) (s : State) :
    (run numberToString toLocaleString es s).2.count .healthCheck ≤ 1 ∧
    (run numberToString toLocaleString es s).2.count .checkData ≤ 1 ∧
    noticesAppended numberToString toLocaleString es s ≤ 1 := by
  induction es generalizing s with
  | nil => exact ⟨Nat.zero_le _, Nat.zero_le _, Nat.zero_le _⟩
  | cons e es ih =>
    rcases step_unlatched_quiet_or_mount numberToString toLocaleString e s with
      ⟨health, check, rfl⟩ | ⟨q1, q2⟩
    · have hlatch := step_mount_sets_latch numberToString toLocaleString health check s
      obtain ⟨-, h2, h3, h4⟩ := run_latched_quiet numberToString toLocaleString es _ hlatch
      obtain ⟨c1, c2⟩ :=
        step_requests_count numberToString toLocaleString (.mount health check) s
      refine ⟨?_, ?_, ?_⟩
      · simp only [run, List.count_append, h2]
        exact c1
      · simp only [run, List.count_append, h3]
        exact c2
      · simp only [noticesAppended, h4, Nat.add_zero]
        exact mount_growth_le_one numberToString toLocaleString health check s
    · obtain ⟨i1, i2, i3⟩ := ih (step numberToString toLocaleString e s).1
      refine ⟨?_, ?_, ?_⟩
      · simp only [run, List.count_append, q1, Nat.zero_add]
        exact i1
      · simp only [run, List.count_append, q2, Nat.zero_add]
        exact i2
      · cases e with
        | mount health check =>
          have hlatch := step_mount_sets_latch numberToString toLocaleString health check s
          obtain ⟨-, -, -, h4⟩ := run_latched_quiet numberToString toLocaleString es _ hlatch
          simp only [noticesAppended, h4, Nat.add_zero]
          exact mount_growth_le_one numberToString toLocaleString health check s
        | fileChosen file => simpa only [noticesAppended, Nat.zero_add] using i3
        | uploadSettled file reply => simpa only [noticesAppended, Nat.zero_add] using i3
        | inputChanged text => simpa only [noticesAppended, Nat.zero_add] using i3
        | send => simpa only [noticesAppended, Nat.zero_add] using i3
        | querySettled reply => simpa only [noticesAppended, Nat.zero_add] using i3
        | fileRemoved => simpa only [noticesAppended, Nat.zero_add] using i3

/-- C18: the first run of the mount effect sets the latch and performs the check: it
runs `initializeApp`, which requests the health check and then, unless that request
throws, the data check, and which appends one notice and fills the uploaded-file slot
exactly when the data check answers that data exists; a run with the latch set issues
no request and leaves the state as it is; no event resets the latch; so along any
sequence of events each of the two requests is issued at most once and the runs of the
mount effect append at most one message in all. -/
theorem mountEffect_checks_at_most_once (numberToString toLocaleString : JSNumber → String) :
    (∀ (health : Fetched Unit) (check : Fetched CheckData) (s : State),
      s.hasCheckedData = false →
        mountEffect toLocaleString health check s =
          initializeApp toLocaleString health check { s with hasCheckedData := true } ∧
        (mountEffect toLocaleString health check s).1.hasCheckedData = true ∧
        (mountEffect toLocaleString health check s).2.head? = some .healthCheck ∧
        (∀ message, health = .error message →
          mountEffect toLocaleString health check s =
            ({ s with hasCheckedData := true }, [.healthCheck])) ∧
        (∀ ok u, health = .response ok u →
          (mountEffect toLocaleString health check s).2 = [.healthCheck, .checkData]) ∧
        (∀ ok u ok2 data, health = .response ok u → check = .response ok2 data →
          (data.dataExists.map JSValue.truthy).getD false = true →
          ∃ (notice : Message) (rows : JSNumber), notice.type = "bot" ∧
            (mountEffect toLocaleString health check s).1 =
              { s with
                hasCheckedData := true
                uploadedFile := some
                  { name := "Pre-loaded data", size := "N/A",
                    columns := ["locality", "date", "price", "demand"], rows := rows }
                messages := s.messages ++ [notice] }) ∧
        ((∀ ok u ok2 data, health = .response ok u → check = .response ok2 data →
            (data.dataExists.map JSValue.truthy).getD false = false) →
          (mountEffect toLocaleString health check s).1 = { s with hasCheckedData := true })) ∧
    (∀ (health : Fetched Unit) (check : Fetched CheckData) (s : State),
      (mountEffect toLocaleString health check s).1.messages = s.messages ∨
      ∃ notice : Message,
        (mountEffect toLocaleString health check s).1.messages = s.messages ++ [notice]) ∧
    (∀ (health : Fetched Unit) (check : Fetched CheckData) (s : State),
      s.hasCheckedData = true → mountEffect toLocaleString health check s = (s, [])) ∧
    (∀ (es : List Event) (s : State), s.hasCheckedData = true →
      (run numberToString toLocaleString es s).1.hasCheckedData = true) ∧
    (∀ (es : List Event) (s : State),
      (run numberToString toLocaleString es s).2.count .healthCheck ≤ 1 ∧
      (run numberToString toLocaleString es s).2.count .checkData ≤ 1 ∧
      noticesAppended numberToString toLocaleString es s ≤ 1) := by
  refine ⟨?_, mountEffect_messages toLocaleString, ?_, ?_,
    run_counts_le_one numberToString toLocaleString⟩
  · intro health check s h
    have hrun : mountEffect toLocaleString health check s =
        initializeApp toLocaleString health check { s with hasCheckedData := true } := by
      simp [mountEffect, h]
    refine ⟨hrun, ?_, ?_, ?_, ?_, ?_, ?_⟩
    · rw [hrun, initializeApp_latch]
    · rw [hrun]
      rcases initializeApp_requests toLocaleString health check
        { s with hasCheckedData := true } with hr | hr <;> rw [hr] <;> rfl
    · intro message hm
      rw [hrun, hm]
      rfl
    · intro ok u hh
      rw [hrun, hh]
      cases check with
      | error message => rfl
      | response ok2 data =>
        by_cases hd : (data.dataExists.map JSValue.truthy).getD false = true
        · obtain ⟨notice, rows, -, hres⟩ := initializeApp_of_data toLocaleString ok u ok2 data
            { s with hasCheckedData := true } hd
          rw [hres]
        · have hd2 : (data.dataExists.map JSValue.truthy).getD false = false := by
            simpa using hd
          rw [initializeApp_of_no_data toLocaleString ok u ok2 data _ hd2]
    · intro ok u ok2 data hh hc hd
      obtain ⟨notice, rows, htype, hres⟩ := initializeApp_of_data toLocaleString ok u ok2 data
        { s with hasCheckedData := true } hd
      refine ⟨notice, rows, htype, ?_⟩
      rw [hrun, hh, hc, hres]
    · intro hnone
      rw [hrun]
      cases health with
      | error message => rfl
      | response ok u =>
        cases check with
        | error message => rfl
        | response ok2 data =>
          rw [initializeApp_of_no_data toLocaleString ok u ok2 data _
            (hnone ok u ok2 data rfl rfl)]
  · intro health check s h
    simp [mountEffect, h]
  · intro es s h
    exact (run_latched_quiet numberToString toLocaleString es s h).1

/-! ## Sending a query -/

theorem trimChars_eq_nil_iff (cs : List Char) :
    trimChars cs = [] ↔ ∀ c ∈ cs, isWhiteSpace c = true := by
  unfold trimChars
  rw [List.reverse_eq_nil_iff, List.dropWhile_eq_nil_iff]
  constructor
  · intro h
    rw [← List.dropWhile_eq_nil_iff]
    by_contra hne
    have hhead := List.head_dropWhile_not isWhiteSpace cs hne
    have hmem : (cs.dropWhile isWhiteSpace).head hne ∈ (cs.dropWhile isWhiteSpace).reverse :=
      List.mem_reverse.mpr (List.head_mem hne)
    rw [h _ hmem] at hhead
    exact Bool.noConfusion hhead
  · intro h
    rw [List.dropWhile_eq_nil_iff.mpr h]
    intro x hx
    simp at hx

theorem trim_eq_empty_iff (s : String) :
    trim s = "" ↔ ∀ c ∈ s.data, isWhiteSpace c = true := by
  rw [← trimChars_eq_nil_iff, trim, String.ext_iff]

theorem trim_ne_empty_of_visible {s : String} (h : ∃ c ∈ s.data, isWhiteSpace c = false) :
    trim s ≠ "" := by
  obtain ⟨c, hc, hw⟩ := h
  intro hempty
  rw [(trim_eq_empty_iff s).mp hempty c hc] at hw
  exact Bool.noConfusion hw

theorem handleSend_start_of_visible (s : State) (h : ∃ c ∈ s.input.data, isWhiteSpace c = false) :
    handleSend.start s =
      ({ s with
          messages := s.messages ++ [({ type := "user", text := s.input } : Message)]
          input := ""
          loading := true },
        some (.query s.input)) := by
  simp [handleSend.start, trim_ne_empty_of_visible h]

theorem clickSend_of_loading (s : State) (h : s.loading = true) :
    clickSend s = (s, none) := by
  simp [clickSend, sendDisabled, h]

theorem keyPress_of_loading (key : String) (shiftKey : Bool) (s : State)
    (h : s.loading = true) : keyPress key shiftKey s = (s, none) := by
  simp [keyPress, inputDisabled, h]

theorem handleSend_start_outcome (s : State) :
    handleSend.start s = (s, none) ∨
    ((handleSend.start s).1.loading = true ∧
      (handleSend.start s).2 = some (.query s.input)) := by
  unfold handleSend.start
  split
  · exact Or.inl rfl
  · exact Or.inr ⟨rfl, rfl⟩

theorem clickSend_outcome (s : State) :
    clickSend s = (s, none) ∨
    (s.loading = false ∧ (clickSend s).1.loading = true ∧
      (clickSend s).2 = some (.query s.input)) := by
  by_cases hl : s.loading = true
  · exact Or.inl (clickSend_of_loading s hl)
  · have hfalse : s.loading = false := by simpa using hl
    by_cases hd : sendDisabled s = true
    · exact Or.inl (by simp [clickSend, hd])
    · have hrun : clickSend s = handleSend.start s := by simp [clickSend, hd]
      rw [hrun]
      rcases handleSend_start_outcome s with h | h
      · exact Or.inl h
      · exact Or.inr ⟨hfalse, h⟩

theorem keyPress_outcome (key : String) (shiftKey : Bool) (s : State) :
    keyPress key shiftKey s = (s, none) ∨
    (s.loading = false ∧ (keyPress key shiftKey s).1.loading = true ∧
      (keyPress key shiftKey s).2 = some (.query s.input)) := by
  by_cases hl : s.loading = true
  · exact Or.inl (keyPress_of_loading key shiftKey s hl)
  · have hfalse : s.loading = false := by simpa using hl
    by_cases hk : key = "Enter" ∧ shiftKey = false
    · have hrun : keyPress key shiftKey s = handleSend.start s := by
        simp [keyPress, inputDisabled, hfalse, hk]
      rw [hrun]
      rcases handleSend_start_outcome s with h | h
      · exact Or.inl h
      · exact Or.inr ⟨hfalse, h⟩
    · exact Or.inl (by simp [keyPress, inputDisabled, hfalse, hk])

theorem mountEffect_loading (toLocaleString : JSNumber → String) (health : Fetched Unit)
    (check : Fetched CheckData) (s : State) :
    (mountEffect toLocaleString health check s).1.loading = s.loading := by
  unfold mountEffect initializeApp
  split
  · rfl
  · split
    · rfl
    · split
      · rfl
      · split <;> rfl

theorem handleFileUpload_start_loading (file : Option File) (s : State) :
    (handleFileUpload.start file s).1.loading = s.loading := by
  unfold handleFileUpload.start
  split
  · rfl
  · split <;> rfl

theorem handleFileUpload_resume_loading (numberToString : JSNumber → String) (file : File)
    (reply : Fetched UploadData) (s : State) :
    (handleFileUpload.resume numberToString file reply s).loading = s.loading := by
  unfold handleFileUpload.resume
  split <;> rfl

/-- The invariant of a session: at most one query request is in flight, and loading is
true whenever one is. -/
theorem act_keeps_one_in_flight (numberToString toLocaleString : JSNumber → String)
    (a : Action) (w : Session)
    (hinv : w.inFlight.length ≤ 1 ∧ (w.inFlight ≠ [] → w.state.loading = true)) :
    (act numberToString toLocaleString a w).inFlight.length ≤ 1 ∧
    ((act numberToString toLocaleString a w).inFlight ≠ [] →
      (act numberToString toLocaleString a w).state.loading = true) := by
  obtain ⟨hlen, hload⟩ := hinv
  have hidle : w.state.loading = false → w.inFlight = [] := by
    intro hf
    by_contra hne
    rw [hload hne] at hf
    exact Bool.noConfusion hf
  cases a with
  | mount health check =>
    refine ⟨hlen, fun hne => ?_⟩
    show (mountEffect toLocaleString health check w.state).1.loading = true
    rw [mountEffect_loading]
    exact hload hne
  | fileChosen file =>
    simp only [act]
    split
    · exact ⟨hlen, hload⟩
    · refine ⟨hlen, fun hne => ?_⟩
      show (handleFileUpload.start file w.state).1.loading = true
      rw [handleFileUpload_start_loading]
      exact hload hne
  | uploadSettled file reply =>
    refine ⟨hlen, fun hne => ?_⟩
    show (handleFileUpload.resume numberToString file reply w.state).loading = true
    rw [handleFileUpload_resume_loading]
    exact hload hne
  | typed text =>
    simp only [act]
    split
    · exact ⟨hlen, hload⟩
    · exact ⟨hlen, hload⟩
  | quickQuery idx =>
    simp only [act]
    split
    · exact ⟨hlen, hload⟩
    · exact ⟨hlen, hload⟩
  | clickSend =>
    simp only [act]
    rcases clickSend_outcome w.state with h | ⟨hfalse, hl, hreq⟩
    · rw [h]
      simpa using ⟨hlen, hload⟩
    · rw [hreq, hidle hfalse]
      exact ⟨by simp, fun _ => hl⟩
  | keyPress key shiftKey =>
    simp only [act]
    rcases keyPress_outcome key shiftKey w.state with h | ⟨hfalse, hl, hreq⟩
    · rw [h]
      simpa using ⟨hlen, hload⟩
    · rw [hreq, hidle hfalse]
      exact ⟨by simp, fun _ => hl⟩
  | querySettled reply =>
    simp only [act]
    split
    · exact ⟨hlen, hload⟩
    · rename_i first rest hw
      have hrest : rest = [] := by
        rw [hw] at hlen
        simp at hlen
        exact hlen
      refine ⟨by simp [hrest], fun hne => absurd hrest hne⟩
  | clickRemove =>
    simp only [act]
    split
    · exact ⟨hlen, hload⟩
    · exact ⟨hlen, hload⟩

theorem actAll_keeps_one_in_flight (numberToString toLocaleString : JSNumber → String)
    (actions : List Action) (w : Session)
    (hinv : w.inFlight.length ≤ 1 ∧ (w.inFlight ≠ [] → w.state.loading = true)) :
    (actAll numberToString toLocaleString actions w).inFlight.length ≤ 1 ∧
    ((actAll numberToString toLocaleString actions w).inFlight ≠ [] →
      (actAll numberToString toLocaleString actions w).state.loading = true) := by
  induction actions generalizing w with
  | nil => exact hinv
  | cons a rest ih =>
    exact ih _ (act_keeps_one_in_flight numberToString toLocaleString a w hinv)

/-- C12: while a query request is pending (loading is true) invoking send again has no
effect: the send button and the text input, the only callers of `handleSend`, are
disabled, so for every input text a click on the button or a key in the input appends
no message, issues no request and leaves the state unchanged; hence, along any
sequence of actions on a component that starts with no request pending, at most one
query request is ever in flight, and loading is true whenever one is. -/
theorem send_idle_while_loading (numberToString toLocaleString : JSNumber → String) :
    (∀ s : State, s.loading = true →
      sendDisabled s = true ∧ inputDisabled s = true ∧
      clickSend s = (s, none) ∧
      (∀ (key : String) (shiftKey : Bool), keyPress key shiftKey s = (s, none))) ∧
    (∀ w : Session, w.state.loading = true →
      act numberToString toLocaleString .clickSend w = w ∧
      (∀ (key : String) (shiftKey : Bool),
        act numberToString toLocaleString (.keyPress key shiftKey) w = w)) ∧
    (∀ (actions : List Action) (s : State),
      (actAll numberToString toLocaleString actions
        { state := s, inFlight := [] }).inFlight.length ≤ 1) ∧
    (∀ (actions : List Action) (s : State),
      (actAll numberToString toLocaleString actions
        { state := s, inFlight := [] }).inFlight ≠ [] →
      (actAll numberToString toLocaleString actions
        { state := s, inFlight := [] }).state.loading = true) := by
  refine ⟨?_, ?_, ?_, ?_⟩
  · intro s h
    exact ⟨by simp [sendDisabled, h], h, clickSend_of_loading s h,
      fun key shiftKey => keyPress_of_loading key shiftKey s h⟩
  · intro w h
    refine ⟨?_, fun key shiftKey => ?_⟩
    · simp [act, clickSend_of_loading w.state h]
    · simp [act, keyPress_of_loading key shiftKey w.state h]
  · intro actions s
    exact (actAll_keeps_one_in_flight numberToString toLocaleString actions
      { state := s, inFlight := [] } ⟨by simp, fun hne => absurd rfl hne⟩).1
  · intro actions s
    exact (actAll_keeps_one_in_flight numberToString toLocaleString actions
      { state := s, inFlight := [] } ⟨by simp, fun hne => absurd rfl hne⟩).2

/-- Witness of C12 on a state with a query pending and text put in the input by a
quick-query button: the click and the Enter key change nothing, and after a send, a
quick query and a second click exactly one request is in flight. -/
theorem send_idle_while_loading_witness :
    pendingState.loading = true ∧
    clickSend pendingState = (pendingState, none) ∧
    keyPress "Enter" false pendingState = (pendingState, none) ∧
    (actAll (fun _ => "1") (fun _ => "1") [.clickSend, .quickQuery 0, .clickSend]
      { state := typedState, inFlight := [] }).inFlight = [.query "Compare prices"] :=
  have h := send_idle_while_loading (fun _ => "1") (fun _ => "1")
  ⟨rfl, (h.1 pendingState rfl).2.2.1, (h.1 pendingState rfl).2.2.2 "Enter" false, by decide⟩

/-- C15, as the code has it: for an input with a visible character and a successful
reply, `handleSend` sends the raw input as the query and appends the user message with
the raw input, then the bot message with the summary (or `Analysis complete.` when
missing or empty), the chart data (or the empty list), the chart type (or `line` when
missing or falsy, the empty string included) and the table data (or the empty list);
afterwards the input is empty and loading is false. -/
theorem handleSend_success_appends_two (s : State) (response : QueryData)
    (h : ∃ c ∈ s.input.data, isWhiteSpace c = false) :
    handleSend (.response true response) s =
      ({ s with
          messages := s.messages ++
            [({ type := "user", text := s.input } : Message), botMessage response]
          input := ""
          loading := false },
        [.query s.input]) ∧
    (botMessage response).type = "bot" ∧
    (botMessage response).text = strOr response.summary "Analysis complete." ∧
    (botMessage response).chartData =
      some ((response.chart.bind fun c => c.data).getD []) ∧
    (∀ t, (response.chart.bind fun c => c.type) = some t → t.truthy = true →
      (botMessage response).chartType = some t) ∧
    (∀ t, (response.chart.bind fun c => c.type) = some t → t.truthy = false →
      (botMessage response).chartType = some (.str "line")) ∧
    ((response.chart.bind fun c => c.type) = none →
      (botMessage response).chartType = some (.str "line")) ∧
    (botMessage response).tableData = some (response.table.getD []) := by
  refine ⟨?_, rfl, rfl, rfl, ?_, ?_, ?_, rfl⟩
  · simp [handleSend, handleSend_start_of_visible s h, handleSend.resume, analyzeQuery]
  · intro t ht htruthy
    simp [botMessage, ht, htruthy]
  · intro t ht htruthy
    simp [botMessage, ht, htruthy]
  · intro ht
    simp [botMessage, ht]

/-- Witness of C15 on typed text and a reply whose chart type is the empty string. -/
theorem handleSend_success_appends_two_witness :
    (handleSend (.response true emptyTypeReply) typedState).2 = [.query "Compare prices"] ∧
    (handleSend (.response true emptyTypeReply) typedState).1.messages =
      [{ type := "user", text := "Compare prices" }, botMessage emptyTypeReply] := by
  have h := (handleSend_success_appends_two typedState emptyTypeReply
    ⟨'C', by decide, by decide⟩).1
  rw [h]
  exact ⟨rfl, rfl⟩

/-- C15 as stated fails: for a reply whose chart type is present and empty the stored
chart type is `line`, not the reply's chart type. -/
theorem botMessage_empty_type_is_line :
    (handleSend (.response true emptyTypeReply) typedState).1.messages =
      [{ type := "user", text := "Compare prices" }, botMessage emptyTypeReply] ∧
    (botMessage emptyTypeReply).chartType = some (.str "line") ∧
    (botMessageSpec emptyTypeReply).chartType = some (.str "") ∧
    botMessage emptyTypeReply ≠ botMessageSpec emptyTypeReply := by
  refine ⟨by decide, by decide, by decide, by decide⟩

theorem handleSend_failure_run (s : State) (reply : Fetched QueryData) (message : String)
    (h : ∃ c ∈ s.input.data, isWhiteSpace c = false)
    (hfail : analyzeQuery reply = .error message) :
    ∃ hint : String,
      handleSend reply s =
        ({ s with
            messages := s.messages ++
              [({ type := "user", text := s.input } : Message),
               { type := "bot", text := "❌ Error: " ++ message ++ "\n\n💡 " ++ hint }]
            input := ""
            loading := false },
          [.query s.input]) := by
  refine ⟨(if includes message "No data found" then "Please upload a file first!"
    else "Troubleshooting:\n1. Check if Django server is running\n2. Verify Qdrant connection\n3. Ensure GEMINI_API_KEY is valid\n4. Try rephrasing your query"), ?_⟩
  simp only [handleSend, handleSend_start_of_visible s h, handleSend.resume, hfail,
    List.append_assoc, List.singleton_append]

/-- C16, as the code has it: for an input with a visible character and a query that
ends in a non-success response or in a thrown error, `handleSend` appends after the
user message one bot failure message with no chart or table data, whose text carries
`API Error: ` followed by the backend's error text (or `Analysis failed` when none is
given) for a non-success response, and by the message of the thrown error otherwise;
afterwards loading is false, the uploaded-file slot is unchanged, and a following
send with visible input is enabled and issues its request. -/
theorem handleSend_failure_appends_one (s : State) (reply : Fetched QueryData)
    (h : ∃ c ∈ s.input.data, isWhiteSpace c = false)
    (hfail : ∀ data, reply ≠ .response true data) :
    ∃ failure : Message,
      handleSend reply s =
        ({ s with
            messages := s.messages ++
              [({ type := "user", text := s.input } : Message), failure]
            input := ""
            loading := false },
          [.query s.input]) ∧
      failure.type = "bot" ∧ failure.chartData = none ∧ failure.chartType = none ∧
      failure.tableData = none ∧
      (∀ data, reply = .response false data → ∃ hint, failure.text =
        "❌ Error: " ++ ("API Error: " ++ strOr data.error "Analysis failed") ++
          "\n\n💡 " ++ hint) ∧
      (∀ message, reply = .error message → ∃ hint, failure.text =
        "❌ Error: " ++ ("API Error: " ++ message) ++ "\n\n💡 " ++ hint) ∧
      (handleSend reply s).1.loading = false ∧
      (handleSend reply s).1.uploadedFile = s.uploadedFile ∧
      (∀ text : String, (∃ c ∈ text.data, isWhiteSpace c = false) →
        sendDisabled { (handleSend reply s).1 with input := text } = false ∧
        (clickSend { (handleSend reply s).1 with input := text }).2 = some (.query text)) := by
  have hexists : ∃ message, analyzeQuery reply = .error message ∧
      (∀ data, reply = .response false data →
        message = "API Error: " ++ strOr data.error "Analysis failed") ∧
      (∀ m, reply = .error m → message = "API Error: " ++ m) := by
    cases reply with
    | response ok data =>
      cases ok with
      | true => exact absurd rfl (hfail data)
      | false =>
        refine ⟨_, rfl, ?_, ?_⟩
        · intro d hd
          cases hd
          rfl
        · intro m hm
          cases hm
    | error m =>
      refine ⟨_, rfl, ?_, ?_⟩
      · intro d hd
        cases hd
      · intro m2 hm
        cases hm
        rfl
  obtain ⟨message, hq, hresp, herr⟩ := hexists
  obtain ⟨hint, hrun⟩ := handleSend_failure_run s reply message h hq
  refine ⟨{ type := "bot", text := "❌ Error: " ++ message ++ "\n\n💡 " ++ hint }, hrun,
    rfl, rfl, rfl, rfl, ?_, ?_, ?_, ?_, ?_⟩
  · intro data hd
    exact ⟨hint, by rw [hresp data hd]⟩
  · intro m hm
    exact ⟨hint, by rw [herr m hm]⟩
  · rw [hrun]
  · rw [hrun]
  · intro text htext
    rw [hrun]
    have hne := trim_ne_empty_of_visible htext
    constructor
    · simp [sendDisabled, hne]
    · simp [clickSend, sendDisabled, handleSend.start, hne]

/-- Witness of C16 on typed text and a request that throws `Failed to fetch`. -/
theorem handleSend_failure_appends_one_witness :
    ∃ failure : Message,
      (handleSend (.error "Failed to fetch") typedState).1.messages =
        [{ type := "user", text := "Compare prices" }, failure] ∧
      failure.type = "bot" ∧
      (handleSend (.error "Failed to fetch") typedState).1.loading = false := by
  obtain ⟨failure, hrun, htype, -, -, -, -, -, hloading, -, -⟩ :=
    handleSend_failure_appends_one typedState (.error "Failed to fetch")
      ⟨'C', by decide, by decide⟩ (fun data hd => by cases hd)
  refine ⟨failure, ?_, htype, hloading⟩
  rw [hrun]
  rfl

/-- C16 as stated fails: when the request throws `Failed to fetch` there is no backend
error text, and the failure message does not carry `API Error: Analysis failed`. -/
theorem handleSend_thrown_error_text :
    serverErrorText (fun d : QueryData => d.error) "Analysis failed"
      (.error "Failed to fetch") = "Analysis failed" ∧
    ∃ failure : Message,
      (handleSend (.error "Failed to fetch") typedState).1.messages =
        [{ type := "user", text := "Compare prices" }, failure] ∧
      includes failure.text ("API Error: " ++
        serverErrorText (fun d : QueryData => d.error) "Analysis failed"
          (.error "Failed to fetch")) = false := by
  refine ⟨rfl, _, rfl, ?_⟩
  decide

/-! ## Outcome of an upload -/

theorem handleFileUpload_start_of_valid (file : File) (s : State)
    (hvalid : fileExtension file.name ∈ validExtensions) :
    handleFileUpload.start (some file) s =
      ({ s with uploading := true }, some (.uploadCsv file)) := by
  have hcontains : validExtensions.contains (fileExtension file.name) = true := by
    simpa [List.contains] using hvalid
  simp [handleFileUpload.start, hcontains, hvalid]

theorem rows_or_zero (count : Option JSNumber) :
    (count = none →
      (match count with
        | some n => if n.truthy then n else JSNumber.finite 0
        | none => JSNumber.finite 0) = .finite 0) ∧
    (∀ n, count = some n → n ≠ .nan →
      (match count with
        | some n => if n.truthy then n else JSNumber.finite 0
        | none => JSNumber.finite 0) = n) := by
  constructor
  · intro h
    rw [h]
  · intro n h hnan
    rw [h]
    cases n with
    | finite q =>
      by_cases hq : q = 0
      · simp [JSNumber.truthy, JSValue.truthy, hq]
      · simp [JSNumber.truthy, JSValue.truthy, hq]
    | nan => exact absurd rfl hnan
    | posInf => simp [JSNumber.truthy, JSValue.truthy]
    | negInf => simp [JSNumber.truthy, JSValue.truthy]

/-- C17, as the code has it: for an accepted file, an upload that ends in a non-success
response appends one bot message with the server's error text (or `Unknown error`) and
the found columns joined by a comma and a space when supplied; one that ends in a thrown
error appends one bot message with the message of that error; in both cases the
uploaded-file slot keeps its value and uploading is false afterwards. A successful
upload replaces the slot by the file's name, its size label, the columns (empty list
when missing) and the row count (0 when missing). -/
theorem handleFileUpload_failure_keeps_slot (numberToString : JSNumber → String)
    (file : File) (s : State) (hvalid : fileExtension file.name ∈ validExtensions) :
    (∀ data : UploadData,
      handleFileUpload numberToString (some file) (.response false data) s =
        ({ s with
            messages := s.messages ++ [
              ({ type := "bot",
                 text := "❌ Upload failed: " ++ strOr data.error "Unknown error" ++ "\n\n" ++
                  (match data.found_columns with
                    | some cols => "Found columns: " ++ join ", " cols
                    | none => "") } : Message)]
            uploading := false },
          [.uploadCsv file])) ∧
    (∀ message : String, ∃ hint : String,
      handleFileUpload numberToString (some file) (.error message) s =
        ({ s with
            messages := s.messages ++ [
              ({ type := "bot", text := "❌ Upload error: " ++ message ++ hint } : Message)]
            uploading := false },
          [.uploadCsv file])) ∧
    (∀ (reply : Fetched UploadData), (∀ data, reply ≠ .response true data) →
      (handleFileUpload numberToString (some file) reply s).1.uploadedFile = s.uploadedFile ∧
      (handleFileUpload numberToString (some file) reply s).1.uploading = false) ∧
    (∀ data : UploadData, ∃ rows : JSNumber,
      (handleFileUpload numberToString (some file) (.response true data) s).1.uploadedFile =
        some { name := file.name, size := sizeLabel file.size,
               columns := data.columns.getD [], rows := rows } ∧
      (handleFileUpload numberToString (some file) (.response true data) s).2 =
        [.uploadCsv file] ∧
      (data.rows_processed = none → rows = .finite 0) ∧
      (∀ n, data.rows_processed = some n → n ≠ .nan → rows = n)) := by
  have hstart := handleFileUpload_start_of_valid file s hvalid
  refine ⟨?_, ?_, ?_, ?_⟩
  · intro data
    simp [handleFileUpload, hstart, handleFileUpload.resume]
  · intro message
    refine ⟨"\n\nMake sure:\n1. Django server is running\n2. Qdrant is configured\n3. GEMINI_API_KEY is set", ?_⟩
    simp [handleFileUpload, hstart, handleFileUpload.resume, String.append_assoc]
  · intro reply hfail
    cases reply with
    | response ok data =>
      cases ok with
      | true => exact absurd rfl (hfail data)
      | false => simp [handleFileUpload, hstart, handleFileUpload.resume]
    | error message => simp [handleFileUpload, hstart, handleFileUpload.resume]
  · intro data
    refine ⟨(match data.rows_processed with
        | some n => if n.truthy then n else JSNumber.finite 0
        | none => JSNumber.finite 0), ?_, ?_,
      (rows_or_zero data.rows_processed).1, (rows_or_zero data.rows_processed).2⟩
    · simp only [handleFileUpload, hstart, handleFileUpload.resume]
    · simp only [handleFileUpload, hstart]

/-- Witness of C17: `data.csv` of 1536 bytes, refused by the server for its columns. -/
theorem handleFileUpload_failure_keeps_slot_witness :
    fileExtension dataCsv.name = ".csv" ∧ sizeLabel dataCsv.size = "1.50 KB" ∧
    (handleFileUpload (fun _ => "1") (some dataCsv) (.response false missingColumnsReply)
      typedState).1.uploadedFile = none ∧
    (handleFileUpload (fun _ => "1") (some dataCsv) (.response false missingColumnsReply)
      typedState).1.uploading = false := by
  have h := (handleFileUpload_failure_keeps_slot (fun _ => "1") dataCsv typedState
    (by decide)).2.2.1 (.response false missingColumnsReply) (fun data hd => by cases hd)
  exact ⟨by decide, by decide, h.1, h.2⟩

/-- C17 as stated fails: when the upload request throws `Failed to fetch` the server
supplied no error text, and the failure message does not contain `Unknown error`. -/
theorem handleFileUpload_thrown_error_text :
    serverErrorText (fun d : UploadData => d.error) "Unknown error"
      (.error "Failed to fetch") = "Unknown error" ∧
    ∃ failure : Message,
      (handleFileUpload (fun _ => "1") (some dataCsv) (.error "Failed to fetch")
        typedState).1.messages = [failure] ∧
      includes failure.text
        (serverErrorText (fun d : UploadData => d.error) "Unknown error"
          (.error "Failed to fetch")) = false := by
  refine ⟨rfl, _, rfl, ?_⟩
  decide

/-! ## The extension check -/

theorem toLower_eq_dot {c : Char} (h : c.toLower = '.') : c = '.' := by
  unfold Char.toLower at h
  simp only at h
  split at h
  · rename_i hup
    exfalso
    obtain ⟨h1, h2⟩ := hup
    generalize c.toNat = n at h h1 h2
    interval_cases n <;> revert h <;> decide
  · exact h

theorem lastIndexOfChars_of_not_mem (c : Char) (cs : List Char) (h : c ∉ cs) :
    lastIndexOfChars c cs = -1 := by
  induction cs with
  | nil => rfl
  | cons x xs ih =>
    have hx : ¬ x = c := fun hxc => h (hxc ▸ List.mem_cons_self _ _)
    have hxs : c ∉ xs := fun hmem => h (List.mem_cons_of_mem _ hmem)
    simp [lastIndexOfChars, ih hxs, hx]

theorem lastIndexOfChars_append (c : Char) (pre post : List Char) (h : c ∉ post) :
    lastIndexOfChars c (pre ++ c :: post) = pre.length := by
  induction pre with
  | nil => simp [lastIndexOfChars, lastIndexOfChars_of_not_mem c post h]
  | cons x xs ih =>
    have hnn : (0 : Int) ≤ (xs.length : Int) := Int.ofNat_nonneg _
    have hstep : lastIndexOfChars c (x :: (xs ++ c :: post)) =
        if 0 ≤ lastIndexOfChars c (xs ++ c :: post)
        then lastIndexOfChars c (xs ++ c :: post) + 1
        else if x = c then 0 else -1 := rfl
    rw [List.cons_append, hstep, ih]
    simp [hnn]

theorem exists_last_occurrence (c : Char) (cs : List Char) (h : c ∈ cs) :
    ∃ pre post, cs = pre ++ c :: post ∧ c ∉ post := by
  induction cs with
  | nil => simp at h
  | cons x xs ih =>
    by_cases hxs : c ∈ xs
    · obtain ⟨pre, post, hsplit, hpost⟩ := ih hxs
      exact ⟨x :: pre, post, by rw [hsplit]; rfl, hpost⟩
    · have hx : c = x := by
        rcases List.mem_cons.mp h with hcx | hcx
        · exact hcx
        · exact absurd hcx hxs
      exact ⟨[], xs, by rw [hx]; rfl, hxs⟩

theorem fileExtension_of_no_dot (name : String) (h : '.' ∉ name.data) :
    fileExtension name = toLowerCase name := by
  simp [fileExtension, substring, lastIndexOf, lastIndexOfChars_of_not_mem '.' name.data h,
    toLowerCase]

theorem fileExtension_of_split (name : String) (pre post : List Char)
    (hsplit : name.data = pre ++ '.' :: post) (hpost : '.' ∉ post) :
    (fileExtension name).data = '.' :: post.map Char.toLower := by
  have hdot : Char.toLower '.' = '.' := by decide
  simp [fileExtension, substring, lastIndexOf, hsplit, lastIndexOfChars_append '.' pre post hpost,
    toLowerCase, hdot]

theorem validExtension_shape {ext : String} (h : ext ∈ validExtensions) :
    ∃ rest, ext.data = '.' :: rest ∧ '.' ∉ rest := by
  simp only [validExtensions, List.mem_cons, List.mem_singleton, List.not_mem_nil,
    or_false] at h
  rcases h with rfl | rfl | rfl
  · exact ⟨['c', 's', 'v'], rfl, by decide⟩
  · exact ⟨['x', 'l', 's', 'x'], rfl, by decide⟩
  · exact ⟨['x', 'l', 's'], rfl, by decide⟩

theorem fileExtension_mem_iff_suffix (name : String) :
    fileExtension name ∈ validExtensions ↔
      ∃ ext ∈ validExtensions, ext.data <:+ (toLowerCase name).data := by
  constructor
  · intro hmem
    by_cases hdot : '.' ∈ name.data
    · obtain ⟨pre, post, hsplit, hpost⟩ := exists_last_occurrence '.' name.data hdot
      refine ⟨fileExtension name, hmem, pre.map Char.toLower, ?_⟩
      have hdot2 : Char.toLower '.' = '.' := by decide
      rw [fileExtension_of_split name pre post hsplit hpost]
      simp [toLowerCase, hsplit, hdot2]
    · exfalso
      obtain ⟨rest, hshape, -⟩ := validExtension_shape hmem
      rw [fileExtension_of_no_dot name hdot] at hshape
      have hin : '.' ∈ name.data.map Char.toLower := by
        have : (toLowerCase name).data = name.data.map Char.toLower := rfl
        rw [← this, hshape]
        exact List.mem_cons_self _ _
      obtain ⟨x, hx, hlow⟩ := List.mem_map.mp hin
      exact hdot (toLower_eq_dot hlow ▸ hx)
  · rintro ⟨ext, hext, t, ht⟩
    obtain ⟨rest, hshape, hrest⟩ := validExtension_shape hext
    have hmap : name.data.map Char.toLower = t ++ ext.data := ht.symm
    obtain ⟨l₁, l₂, hname, -, h2⟩ := List.map_eq_append_iff.mp hmap
    rw [hshape] at h2
    obtain ⟨d, r, hl₂, hd, hr⟩ := List.map_eq_cons_iff.mp h2
    have hd2 : d = '.' := toLower_eq_dot hd
    have hnot : '.' ∉ r := by
      intro hmem
      apply hrest
      rw [← hr]
      have hdot2 : Char.toLower '.' = '.' := by decide
      exact List.mem_map.mpr ⟨'.', hmem, hdot2⟩
    have hsplit : name.data = l₁ ++ '.' :: r := by rw [hname, hl₂, hd2]
    have hdata : (fileExtension name).data = ext.data := by
      rw [fileExtension_of_split name l₁ r hsplit hnot, hr, hshape]
    rw [String.ext hdata]
    exact hext

/-- C20: the extension check accepts a file name if and only if the lower-cased name
ends with .csv, .xlsx or .xls, and a file is sent exactly then; only the last dot
counts (data.csv.pdf is refused, data.v2.CSV is accepted); for a name with no dot the
extracted extension is the whole lower-cased name, and such a name is never accepted. -/
theorem extension_check_iff_name_suffix :
    (∀ name : String, validExtensions.contains (fileExtension name) = true ↔
      ∃ ext ∈ validExtensions, ext.data <:+ (toLowerCase name).data) ∧
    (∀ (file : File) (s : State),
      (handleFileUpload.start (some file) s).2 = some (.uploadCsv file) ↔
        ∃ ext ∈ validExtensions, ext.data <:+ (toLowerCase file.name).data) ∧
    validExtensions.contains (fileExtension "data.csv.pdf") = false ∧
    validExtensions.contains (fileExtension "data.v2.CSV") = true ∧
    (∀ name : String, '.' ∉ name.data →
      fileExtension name = toLowerCase name ∧
      validExtensions.contains (fileExtension name) = false) := by
  have hcontains : ∀ name : String, validExtensions.contains (fileExtension name) = true ↔
      fileExtension name ∈ validExtensions := by
    intro name
    simp [List.contains]
  refine ⟨?_, ?_, by decide, by decide, ?_⟩
  · intro name
    rw [hcontains, fileExtension_mem_iff_suffix]
  · intro file s
    rw [← fileExtension_mem_iff_suffix]
    by_cases hmem : fileExtension file.name ∈ validExtensions
    · simp [handleFileUpload_start_of_valid file s hmem, hmem]
    · have hc : validExtensions.contains (fileExtension file.name) = false := by
        rw [← Bool.not_eq_true, hcontains]
        exact hmem
      simp [handleFileUpload.start, hc, hmem]
  · intro name hdot
    refine ⟨fileExtension_of_no_dot name hdot, ?_⟩
    rw [← Bool.not_eq_true, hcontains, fileExtension_mem_iff_suffix]
    rintro ⟨ext, hext, t, ht⟩
    obtain ⟨rest, hshape, -⟩ := validExtension_shape hext
    have hin : '.' ∈ name.data.map Char.toLower := by
      have : (toLowerCase name).data = name.data.map Char.toLower := rfl
      rw [← this, ← ht, hshape]
      simp
    obtain ⟨x, hx, hlow⟩ := List.mem_map.mp hin
    exact hdot (toLower_eq_dot hlow ▸ hx)

end REC

namespace RealEstateChatbot

/-! ## File validation -/

theorem handleFileUpload_start_request_iff (file : File) (s : State) :
    (handleFileUpload.start (some file) s).2 = some (.upload file) ↔
      file.type ∈ validTypes ∨ ".csv".data <:+ file.name.data := by
  have he : endsWith file.name ".csv" = true ↔ ".csv".data <:+ file.name.data := by
    simp [endsWith]
  rw [← he]
  by_cases hm : file.type ∈ validTypes
  · simp [handleFileUpload.start, hm]
  · by_cases hs : endsWith file.name ".csv" = true
    · simp [handleFileUpload.start, hm, hs]
    · simp [handleFileUpload.start, hm, hs]

theorem handleFileUpload_start_refused (file : File) (s : State)
    (hno : ¬ (file.type ∈ validTypes ∨ ".csv".data <:+ file.name.data)) :
    handleFileUpload.start (some file) s =
      ({ s with messages := s.messages ++ [invalidFileMessage] }, none) := by
  have hm : file.type ∉ validTypes := fun h => hno (Or.inl h)
  have hs : endsWith file.name ".csv" = false := by
    rw [← Bool.not_eq_true]
    intro he
    exact hno (Or.inr (by simpa [endsWith] using he))
  simp [handleFileUpload.start, hm, hs]

/-- C11, as the code has it: a selected file is sent to the backend if and only if the
MIME type reported for it is one of the three of `validTypes` or its name ends with
.csv; otherwise one bot message is appended and no request is issued. So a file named
report.pdf is refused exactly when its reported type is none of the three, and a file
named data.xlsx is accepted exactly when its reported type is one of them. -/
theorem upload_sent_iff_type_or_csv_name :
    (∀ (file : File) (s : State),
      (handleFileUpload.start (some file) s).2 = some (.upload file) ↔
        file.type ∈ validTypes ∨ ".csv".data <:+ file.name.data) ∧
    (∀ (file : File) (s : State),
      ¬ (file.type ∈ validTypes ∨ ".csv".data <:+ file.name.data) →
        handleFileUpload.start (some file) s =
          ({ s with messages := s.messages ++ [invalidFileMessage] }, none)) ∧
    (∀ (size : Nat) (type : String) (s : State),
      (handleFileUpload.start (some { name := "report.pdf", size := size, type := type }) s).2
        = none ↔ type ∉ validTypes) ∧
    (∀ (size : Nat) (type : String) (s : State),
      (handleFileUpload.start (some { name := "data.xlsx", size := size, type := type }) s).2
        = some (.upload { name := "data.xlsx", size := size, type := type }) ↔
        type ∈ validTypes) := by
  refine ⟨handleFileUpload_start_request_iff, handleFileUpload_start_refused, ?_, ?_⟩
  · intro size type s
    have hpdf : ¬ ".csv".data <:+ "report.pdf".data := by decide
    constructor
    · intro hnone hmem
      rw [(handleFileUpload_start_request_iff
        { name := "report.pdf", size := size, type := type } s).mpr (Or.inl hmem)] at hnone
      exact Option.noConfusion hnone
    · intro hnot
      rw [handleFileUpload_start_refused { name := "report.pdf", size := size, type := type } s]
      rintro (hm | hs)
      · exact hnot hm
      · exact hpdf hs
  · intro size type s
    have hxlsx : ¬ ".csv".data <:+ "data.xlsx".data := by decide
    rw [handleFileUpload_start_request_iff]
    constructor
    · rintro (hm | hs)
      · exact hm
      · exact absurd hs hxlsx
    · intro hm
      exact Or.inl hm

/-- C11 as stated fails: `report.pdf` reported as `text/csv` is sent to the backend
although its extension is none of .csv, .xlsx, .xls, and `data.xlsx` reported with no
type is refused although its extension is .xlsx. -/
theorem upload_check_reads_type :
    REC.fileExtension reportPdfAsCsv.name ∉ REC.validExtensions ∧
    (handleFileUpload.start (some reportPdfAsCsv) initialState).2 =
      some (.upload reportPdfAsCsv) ∧
    REC.fileExtension dataXlsxNoType.name ∈ REC.validExtensions ∧
    (handleFileUpload.start (some dataXlsxNoType) initialState).2 = none := by
  refine ⟨by decide, by decide, by decide, by decide⟩

/-! ## The two CSV serialisers -/

theorem join_length_excess {α : Type} (sep : String) (f g : α → String) (d : α → Nat)
    (hfg : ∀ x, (f x).length = (g x).length + d x) (xs : List α) (h h' : String) (e : Nat)
    (hh : h.length = h'.length + e) :
    (REC.join sep (h :: xs.map f)).length =
      (REC.join sep (h' :: xs.map g)).length + e + (xs.map d).sum := by
  induction xs generalizing h h' e with
  | nil => simp [REC.join, hh]
  | cons x r ih =>
    have hx := ih (f x) (g x) (d x) (hfg x)
    simp only [List.map_cons, REC.join, String.length_append, List.sum_cons] at hx ⊢
    omega

theorem mem_le_sum_map {α : Type} (d : α → Nat) (xs : List α) (x : α) (hx : x ∈ xs) :
    d x ≤ (xs.map d).sum := by
  induction xs with
  | nil => simp at hx
  | cons y r ih =>
    rcases List.mem_cons.mp hx with rfl | hmem
    · simp
    · have := ih hmem
      simp only [List.map_cons, List.sum_cons]
      omega

theorem quoted_length (numberToString : REC.JSNumber → String) (val : REC.JSValue) :
    (REC.joinText numberToString (REC.quoteValue val)).length =
      (REC.joinText numberToString val).length + quoteExcess val := by
  rw [REC.joinText_quoteValue]
  cases val with
  | str s =>
    by_cases h : ',' ∈ s.data
    · simp only [REC.csvField, h, if_true, REC.joinText, quoteExcess, String.length_append]
      have : ("\"" : String).length = 1 := rfl
      omega
    · simp [REC.csvField, h, REC.joinText, quoteExcess]
  | num n => rfl
  | bool b => rfl
  | null => rfl

theorem line_length (numberToString : REC.JSNumber → String) (row : REC.Record) :
    (REC.join "," (((REC.Object.values row).map REC.quoteValue).map
        (REC.joinText numberToString))).length =
      (REC.join "," ((REC.Object.values row).map (REC.joinText numberToString))).length +
        ((REC.Object.values row).map quoteExcess).sum := by
  rw [List.map_map]
  cases hv : REC.Object.values row with
  | nil => rfl
  | cons v r =>
    have h := join_length_excess ","
      (REC.joinText numberToString ∘ REC.quoteValue) (REC.joinText numberToString)
      quoteExcess (quoted_length numberToString) r
      (REC.joinText numberToString (REC.quoteValue v)) (REC.joinText numberToString v)
      (quoteExcess v) (quoted_length numberToString v)
    simp only [List.map_cons, List.sum_cons, Function.comp] at h ⊢
    omega

theorem convertToCSV_length (numberToString : REC.JSNumber → String)
    (first : REC.Record) (rest : List REC.Record) :
    (REC.convertToCSV numberToString (some (first :: rest))).length =
      (convertToCSV numberToString (some (first :: rest))).length +
        ((first :: rest).map fun row => ((REC.Object.values row).map quoteExcess).sum).sum := by
  have h := join_length_excess "\n"
    (fun row : REC.Record => REC.join "," (((REC.Object.values row).map REC.quoteValue).map
      (REC.joinText numberToString)))
    (fun row : REC.Record => REC.join ","
      ((REC.Object.values row).map (REC.joinText numberToString)))
    (fun row : REC.Record => ((REC.Object.values row).map quoteExcess).sum)
    (line_length numberToString) (first :: rest)
    (REC.join "," (REC.Object.keys first)) (REC.join "," (REC.Object.keys first)) 0 rfl
  simp only [REC.convertToCSV, convertToCSV]
  omega

theorem quoteValue_of_comma_free (val : REC.JSValue)
    (h : ∀ s, val = .str s → ',' ∉ s.data) : REC.quoteValue val = val := by
  cases val with
  | str s =>
    have hfalse : REC.includes s "," = false := by
      rw [← Bool.not_eq_true, REC.includes_comma_iff]
      exact h s rfl
    simp [REC.quoteValue, hfalse]
  | num n => rfl
  | bool b => rfl
  | null => rfl

theorem commaCount_append (a b : String) :
    commaCount (a ++ b) = commaCount a + commaCount b := by
  simp [commaCount, List.count_append]

theorem commaCount_join (l : List String) (hne : l ≠ []) :
    commaCount (REC.join "," l) + 1 = l.length + (l.map commaCount).sum := by
  induction l with
  | nil => exact absurd rfl hne
  | cons x r ih =>
    cases r with
    | nil => simp [REC.join]; omega
    | cons y r2 =>
      have hrec := ih (List.cons_ne_nil y r2)
      have hcomma : commaCount "," = 1 := rfl
      simp only [REC.join, commaCount_append, hcomma, List.length_cons, List.map_cons,
        List.sum_cons] at hrec ⊢
      omega

theorem sum_map_commaCount_eq_zero (l : List String) (h : ∀ k ∈ l, ',' ∉ k.data) :
    (l.map commaCount).sum = 0 := by
  induction l with
  | nil => rfl
  | cons x r ih =>
    have hx : commaCount x = 0 := List.count_eq_zero.mpr (h x (List.mem_cons_self _ _))
    have hr := ih (fun k hk => h k (List.mem_cons_of_mem _ hk))
    simp [hx, hr]

/-- C19, as the code has it: on every record list in which no string value contains a
comma the two serialisers return the same text; on every non-empty list in which some
string value contains a comma they return different texts; this component never
quotes, and in its text the data line of a record with such a value has more
comma-separated fields than the header whenever the record has as many values as the
first record has keys and no key contains a comma. -/
theorem csv_serialisers_agree_iff_comma_free (numberToString : REC.JSNumber → String) :
    (∀ data : Option (List REC.Record),
      (∀ row ∈ data.getD [], ∀ s, REC.JSValue.str s ∈ REC.Object.values row → ',' ∉ s.data) →
        REC.convertToCSV numberToString data = convertToCSV numberToString data) ∧
    (∀ (first : REC.Record) (rest : List REC.Record),
      (∃ row ∈ first :: rest, ∃ s, REC.JSValue.str s ∈ REC.Object.values row ∧ ',' ∈ s.data) →
        REC.convertToCSV numberToString (some (first :: rest)) ≠
          convertToCSV numberToString (some (first :: rest))) ∧
    (∀ (first : REC.Record) (rest : List REC.Record),
      convertToCSV numberToString (some (first :: rest)) =
        "\n".intercalate (",".intercalate (REC.Object.keys first) ::
          (first :: rest).map fun row =>
            ",".intercalate ((REC.Object.values row).map (REC.joinText numberToString)))) ∧
    (∀ first row : REC.Record, row.length = first.length →
      (∀ key ∈ REC.Object.keys first, ',' ∉ key.data) →
      (∃ s, REC.JSValue.str s ∈ REC.Object.values row ∧ ',' ∈ s.data) →
        commaCount (",".intercalate (REC.Object.keys first)) <
          commaCount (",".intercalate
            ((REC.Object.values row).map (REC.joinText numberToString)))) := by
  refine ⟨?_, ?_, ?_, ?_⟩
  · intro data hfree
    cases data with
    | none => rfl
    | some l =>
      cases l with
      | nil => rfl
      | cons first rest =>
        simp only [REC.convertToCSV, convertToCSV]
        congr 2
        apply List.map_congr_left
        intro row hrow
        congr 1
        rw [List.map_map]
        apply List.map_congr_left
        intro val hval
        have hq : REC.quoteValue val = val := by
          apply quoteValue_of_comma_free
          intro s hs
          exact hfree row hrow s (hs ▸ hval)
        simp [hq]
  · rintro first rest ⟨row, hrow, s, hs, hcomma⟩ heq
    have hlen := convertToCSV_length numberToString first rest
    rw [heq] at hlen
    have h1 : quoteExcess (.str s) ≤ ((REC.Object.values row).map quoteExcess).sum :=
      mem_le_sum_map quoteExcess _ _ hs
    have h2 : ((REC.Object.values row).map quoteExcess).sum ≤
        ((first :: rest).map fun row => ((REC.Object.values row).map quoteExcess).sum).sum :=
      mem_le_sum_map (fun row : REC.Record => ((REC.Object.values row).map quoteExcess).sum)
        _ _ hrow
    have h3 : quoteExcess (.str s) = 2 := by simp [quoteExcess, hcomma]
    omega
  · intro first rest
    simp only [convertToCSV, REC.join_eq_intercalate]
  · rintro first row hlen hkeys ⟨s, hs, hcomma⟩
    rw [← REC.join_eq_intercalate, ← REC.join_eq_intercalate]
    have hvals : (REC.Object.values row).map (REC.joinText numberToString) ≠ [] := by
      intro hnil
      rw [List.map_eq_nil_iff] at hnil
      rw [hnil] at hs
      simp at hs
    have hrowlen : 0 < row.length := by
      cases row with
      | nil => simp [REC.Object.values] at hs
      | cons _ _ => simp
    have hkeysne : REC.Object.keys first ≠ [] := by
      intro hnil
      have : (REC.Object.keys first).length = first.length := by simp [REC.Object.keys]
      rw [hnil] at this
      simp at this
      omega
    have hdata := commaCount_join _ hvals
    have hhead := commaCount_join _ hkeysne
    rw [sum_map_commaCount_eq_zero _ hkeys] at hhead
    have hone : 1 ≤ (((REC.Object.values row).map (REC.joinText numberToString)).map
        commaCount).sum := by
      have hmem : REC.joinText numberToString (.str s) ∈
          (REC.Object.values row).map (REC.joinText numberToString) :=
        List.mem_map.mpr ⟨_, hs, rfl⟩
      have hle := mem_le_sum_map commaCount _ _ hmem
      have hpos : 1 ≤ commaCount (REC.joinText numberToString (.str s)) := by
        simp only [REC.joinText, commaCount]
        exact List.one_le_count_iff.mpr hcomma
      omega
    have hl1 : ((REC.Object.values row).map (REC.joinText numberToString)).length =
        row.length := by simp [REC.Object.values]
    have hl2 : (REC.Object.keys first).length = first.length := by simp [REC.Object.keys]
    omega

/-- C19 as stated fails: for the one-record list with the key `city, state` and the value
`Pune, MH` the two texts differ, and the data line of this component has as many
comma-separated fields as the header, not more. -/
theorem csv_data_line_fields_not_more :
    REC.convertToCSV (fun _ => "1") (some cityState) = "city, state\n\"Pune, MH\"" ∧
    convertToCSV (fun _ => "1") (some cityState) = "city, state\nPune, MH" ∧
    ¬ commaCount "city, state" < commaCount "Pune, MH" := by
  refine ⟨by decide, by decide, by decide⟩

/-! ## Sending with a blank input -/

theorem rec_handleSend_start_blank (s : REC.State)
    (h : ∀ c ∈ s.input.data, REC.isWhiteSpace c = true) :
    REC.handleSend.start s = (s, none) := by
  simp [REC.handleSend.start, (REC.trim_eq_empty_iff s.input).mpr h]

theorem handleSend_start_blank (s : State)
    (h : ∀ c ∈ s.input.data, REC.isWhiteSpace c = true) :
    handleSend.start s = (s, none) := by
  simp [handleSend.start, (REC.trim_eq_empty_iff s.input).mpr h]

/-- C21: in both components `handleSend` with an input that is empty or holds only white
space does nothing, however the backend would have answered: the state is returned as
it is (no message appended, the input text not cleared, loading, uploading and the
uploaded-file slot unchanged) and no request is issued. -/
theorem handleSend_blank_input_noop (recState : REC.State) (s : State)
    (recReply : REC.Fetched REC.QueryData) (reply : REC.Fetched QueryData)
    (hrec : ∀ c ∈ recState.input.data, REC.isWhiteSpace c = true)
    (h : ∀ c ∈ s.input.data, REC.isWhiteSpace c = true) :
    (REC.handleSend.start recState = (recState, none) ∧
      REC.handleSend recReply recState = (recState, [])) ∧
    (handleSend.start s = (s, none) ∧ handleSend reply s = (s, [])) ∧
    ((REC.handleSend recReply recState).1.messages = recState.messages ∧
      (REC.handleSend recReply recState).1.input = recState.input ∧
      (REC.handleSend recReply recState).1.loading = recState.loading ∧
      (REC.handleSend recReply recState).1.uploading = recState.uploading ∧
      (REC.handleSend recReply recState).1.uploadedFile = recState.uploadedFile) ∧
    ((handleSend reply s).1.messages = s.messages ∧
      (handleSend reply s).1.input = s.input ∧
      (handleSend reply s).1.loading = s.loading ∧
      (handleSend reply s).1.uploading = s.uploading ∧
      (handleSend reply s).1.uploadedFile = s.uploadedFile) := by
  have h1 := rec_handleSend_start_blank recState hrec
  have h2 := handleSend_start_blank s h
  have h3 : REC.handleSend recReply recState = (recState, []) := by
    simp [REC.handleSend, h1]
  have h4 : handleSend reply s = (s, []) := by
    simp [handleSend, h2]
  rw [h3, h4]
  exact ⟨⟨h1, rfl⟩, ⟨h2, rfl⟩, ⟨rfl, rfl, rfl, rfl, rfl⟩, ⟨rfl, rfl, rfl, rfl, rfl⟩⟩

/-- Witness of C21: an input of a space, a tab and a line feed in each component, with a
successful reply at hand. -/
theorem handleSend_blank_input_noop_witness :
    REC.handleSend (.response true REC.emptyTypeReply) recBlankInputState =
      (recBlankInputState, []) ∧
    handleSend (.response true summaryReply) blankInputState = (blankInputState, []) ∧
    (handleSend (.response true summaryReply) blankInputState).1.input = " \t\n" :=
  have hw := handleSend_blank_input_noop recBlankInputState blankInputState
    (.response true REC.emptyTypeReply) (.response true summaryReply)
    (by decide) (by decide)
  ⟨hw.1.2, hw.2.1.2, hw.2.2.2.2.1⟩

end RealEstateChatbot
